import Mathlib

/-!
# Dynamixel protocol 2.0 framing (`src/usb2dynamixel/ProtocolV2.cpp`)

A shallow embedding of the framing and integrity functions of the protocol layer:
byte stuffing (`addEscapes`, `removeEscapes`), the table driven CRC
(`calculateChecksum`), packet validation (`validatePacket`), packet construction
(`createPacket`) and payload extraction (`extractPayload`); of the field encodings
(`convertLength`, `convertAddress`, `buildBulkReadPackage`) and `baudIndexToBaudrate`
of `dynamixel.h`; and of the read loop (`synchronizeOnHeader`, `readPacket`) over a
transport and a clock that are given as oracles.

A `std::byte` is a `Fin 256`, a `Parameter` (`std::vector<std::byte>`) is a list of
bytes, and the `int` / `std::size_t` / `uint16_t` locals are natural numbers, reduced
modulo `2 ^ 16` where the source stores into a `uint16_t`. The loops of the read path
take a fuel argument; each of their iterations takes at least one byte from a finite
stream, and the fuel that the functions pass is shown to be enough.

Two further parts of the repository are embedded: the catalog of the Pro series
(`src/usb2dynamixel/LayoutPro.cpp`, namespace `dynamixel.pro`), a table of registers and of
default values per model, and the tokenizer of the command line
(`src/sargparse/ArgumentParsing.cpp`, namespace `sargp`).
-/

namespace dynamixel

/-- A `std::byte`. -/
abbrev Byte := Fin 256

/-- The `Parameter` type of `dynamixel.h`: `std::vector<std::byte>`. -/
abbrev Parameter := List Byte

/-- The `MotorID` type of `dynamixel.h`: `uint8_t`. -/
abbrev MotorID := Fin 256

/-- The constant `MotorIDInvalid` of `dynamixel.h`. -/
def MotorIDInvalid : MotorID := 0xFF

/-- The constant `BroadcastID` of `dynamixel.h`. -/
def BroadcastID : MotorID := 0xFE

/-- Conversion `std::byte(n)` of an integer whose value has already been masked or
is truncated to eight bits. -/
def toByte (n : Nat) : Byte := ⟨n % 256, Nat.mod_lt n (by decide)⟩

/-! ## Byte stuffing -/

/-- One iteration of the loop of `addEscapes`; the pair is `(state, escaped)`. -/
def addEscapesStep (acc : Nat × Parameter) (b : Byte) : Nat × Parameter :=
  let state := acc.1
  let escaped := acc.2
  if state = 0 ∧ b = 0xff then
    (state + 1, escaped ++ [b])
  else if state = 1 ∧ b = 0xff then
    (state + 1, escaped ++ [b])
  else if state = 2 ∧ b = 0xfd then
    (0, (escaped ++ [0xfd]) ++ [b])
  else
    (0, escaped ++ [b])

/-- The function `addEscapes` over the byte range `[start, end)`. -/
def addEscapes (data : Parameter) : Parameter :=
  (data.foldl addEscapesStep (0, [])).2

/-- One iteration of the loop of `removeEscapes`; the pair is `(state, unescaped)`. -/
def removeEscapesStep (acc : Nat × Parameter) (b : Byte) : Nat × Parameter :=
  let state := acc.1
  let unescaped := acc.2 ++ [b]
  if state = 0 ∧ b = 0xff then
    (state + 1, unescaped)
  else if state = 1 ∧ b = 0xff then
    (state + 1, unescaped)
  else if state = 2 ∧ b = 0xfd then
    (state + 1, unescaped)
  else if state = 3 ∧ b = 0xfd then
    (0, unescaped.dropLast)
  else
    (0, unescaped)

/-- The function `removeEscapes` over the byte range `[start, end)`. -/
def removeEscapes (data : Parameter) : Parameter :=
  (data.foldl removeEscapesStep (0, [])).2

/-! ## Checksum -/

/-- The table `crc_table` of `calculateChecksum`. -/
def crc_table : List Nat := [
    0x0000, 0x8005, 0x800F, 0x000A, 0x801B, 0x001E, 0x0014, 0x8011,
    0x8033, 0x0036, 0x003C, 0x8039, 0x0028, 0x802D, 0x8027, 0x0022,
    0x8063, 0x0066, 0x006C, 0x8069, 0x0078, 0x807D, 0x8077, 0x0072,
    0x0050, 0x8055, 0x805F, 0x005A, 0x804B, 0x004E, 0x0044, 0x8041,
    0x80C3, 0x00C6, 0x00CC, 0x80C9, 0x00D8, 0x80DD, 0x80D7, 0x00D2,
    0x00F0, 0x80F5, 0x80FF, 0x00FA, 0x80EB, 0x00EE, 0x00E4, 0x80E1,
    0x00A0, 0x80A5, 0x80AF, 0x00AA, 0x80BB, 0x00BE, 0x00B4, 0x80B1,
    0x8093, 0x0096, 0x009C, 0x8099, 0x0088, 0x808D, 0x8087, 0x0082,
    0x8183, 0x0186, 0x018C, 0x8189, 0x0198, 0x819D, 0x8197, 0x0192,
    0x01B0, 0x81B5, 0x81BF, 0x01BA, 0x81AB, 0x01AE, 0x01A4, 0x81A1,
    0x01E0, 0x81E5, 0x81EF, 0x01EA, 0x81FB, 0x01FE, 0x01F4, 0x81F1,
    0x81D3, 0x01D6, 0x01DC, 0x81D9, 0x01C8, 0x81CD, 0x81C7, 0x01C2,
    0x0140, 0x8145, 0x814F, 0x014A, 0x815B, 0x015E, 0x0154, 0x8151,
    0x8173, 0x0176, 0x017C, 0x8179, 0x0168, 0x816D, 0x8167, 0x0162,
    0x8123, 0x0126, 0x012C, 0x8129, 0x0138, 0x813D, 0x8137, 0x0132,
    0x0110, 0x8115, 0x811F, 0x011A, 0x810B, 0x010E, 0x0104, 0x8101,
    0x8303, 0x0306, 0x030C, 0x8309, 0x0318, 0x831D, 0x8317, 0x0312,
    0x0330, 0x8335, 0x833F, 0x033A, 0x832B, 0x032E, 0x0324, 0x8321,
    0x0360, 0x8365, 0x836F, 0x036A, 0x837B, 0x037E, 0x0374, 0x8371,
    0x8353, 0x0356, 0x035C, 0x8359, 0x0348, 0x834D, 0x8347, 0x0342,
    0x03C0, 0x83C5, 0x83CF, 0x03CA, 0x83DB, 0x03DE, 0x03D4, 0x83D1,
    0x83F3, 0x03F6, 0x03FC, 0x83F9, 0x03E8, 0x83ED, 0x83E7, 0x03E2,
    0x83A3, 0x03A6, 0x03AC, 0x83A9, 0x03B8, 0x83BD, 0x83B7, 0x03B2,
    0x0390, 0x8395, 0x839F, 0x039A, 0x838B, 0x038E, 0x0384, 0x8381,
    0x0280, 0x8285, 0x828F, 0x028A, 0x829B, 0x029E, 0x0294, 0x8291,
    0x82B3, 0x02B6, 0x02BC, 0x82B9, 0x02A8, 0x82AD, 0x82A7, 0x02A2,
    0x82E3, 0x02E6, 0x02EC, 0x82E9, 0x02F8, 0x82FD, 0x82F7, 0x02F2,
    0x02D0, 0x82D5, 0x82DF, 0x02DA, 0x82CB, 0x02CE, 0x02C4, 0x82C1,
    0x8243, 0x0246, 0x024C, 0x8249, 0x0258, 0x825D, 0x8257, 0x0252,
    0x0270, 0x8275, 0x827F, 0x027A, 0x826B, 0x026E, 0x0264, 0x8261,
    0x0220, 0x8225, 0x822F, 0x022A, 0x823B, 0x023E, 0x0234, 0x8231,
    0x8213, 0x0216, 0x021C, 0x8219, 0x0208, 0x820D, 0x8207, 0x0202
  ]

/-- One iteration of the loop of `calculateChecksum`: `index` is a `uint8_t` and the
new value is stored into the `uint16_t` variable `checkSum`. -/
def checksumStep (checkSum : Nat) (b : Byte) : Nat :=
  let index := ((checkSum >>> 8) ^^^ b.val) &&& 0xff
  ((checkSum <<< 8) ^^^ crc_table.getD index 0) % 65536

/-- The function `calculateChecksum` over the byte range `[begin, end)`. -/
def calculateChecksum (data : Parameter) : Parameter :=
  let checkSum := data.foldl checksumStep 0
  [toByte (checkSum &&& 0xff), toByte ((checkSum >>> 8) &&& 0xff)]

/-! ## Packets -/

/-- The call `std::equal(first1, last1, first2)` where the second range starts at
`first2` and has at least as many elements as the first. -/
def stdEqual (first : Parameter) (second : Parameter) : Bool :=
  first == second.take first.length

/-- The function `validatePacket`. -/
def validatePacket (rxBuf : Parameter) : Bool :=
  if rxBuf.length > (2 <<< 16) - 1 then
    false
  else if rxBuf.length < 10 then
    false
  else
    let success := true
    let success := success && ((0xff : Byte) == rxBuf.getD 0 0)
    let success := success && ((0xff : Byte) == rxBuf.getD 1 0)
    let success := success && ((0xfd : Byte) == rxBuf.getD 2 0)
    let success := success && ((0x00 : Byte) == rxBuf.getD 3 0)
    let len := (rxBuf.getD 5 0).val + ((rxBuf.getD 6 0).val <<< 8)
    let success := success && (len + 7 == rxBuf.length)
    let checksum := calculateChecksum (rxBuf.take (rxBuf.length - 2))
    let success := success && stdEqual checksum (rxBuf.drop (rxBuf.length - 2))
    success

/-- The enumeration `Instruction` of `dynamixel.h`. -/
inductive Instruction where
  | PING
  | READ
  | WRITE
  | REG_WRITE
  | ACTION
  | RESET
  | REBOOT
  | STATUS
  | SYNC_READ
  | SYNC_WRITE
  | BULK_READ
  | BULK_WRITE
  deriving DecidableEq, Repr

/-- The underlying `uint8_t` value of an `Instruction`, as `std::byte(instr)`. -/
def Instruction.toByte : Instruction → Byte
  | .PING => 0x01
  | .READ => 0x02
  | .WRITE => 0x03
  | .REG_WRITE => 0x04
  | .ACTION => 0x05
  | .RESET => 0x06
  | .REBOOT => 0x08
  | .STATUS => 0x55
  | .SYNC_READ => 0x82
  | .SYNC_WRITE => 0x83
  | .BULK_READ => 0x92
  | .BULK_WRITE => 0x93

/-- The call `std::copy(src.begin(), src.end(), std::next(buf.begin(), pos))` into a
buffer that has room for the copied bytes. -/
def copyAt (buf : Parameter) (pos : Nat) (src : Parameter) : Parameter :=
  buf.take pos ++ src ++ buf.drop (pos + src.length)

/-- The function `ProtocolV2::createPacket`. -/
def createPacket (motorID : MotorID) (instr : Instruction) (data : Parameter) : Parameter :=
  let escaped := addEscapes data
  let txBuf : Parameter := List.replicate (escaped.length + 10) 0
  let txBuf := txBuf.set 0 0xff
  let txBuf := txBuf.set 1 0xff
  let txBuf := txBuf.set 2 0xfd
  let txBuf := txBuf.set 3 0x00
  let txBuf := txBuf.set 4 motorID
  let txBuf := txBuf.set 5 (toByte (((escaped.length + 3) >>> 0) &&& 0xff))
  let txBuf := txBuf.set 6 (toByte (((escaped.length + 3) >>> 8) &&& 0xff))
  let txBuf := txBuf.set 7 instr.toByte
  let txBuf := copyAt txBuf 8 escaped
  let it := 8 + escaped.length
  let checkSumPart := calculateChecksum (txBuf.take it)
  copyAt txBuf it checkSumPart

/-- Modelled from the spec: the type `ErrorCode` is declared in `ProtocolBase.h`; the
spec describes it as the single status byte reported by a device, and
`ErrorCode{}` is its zero value. -/
abbrev ErrorCode := Fin 256

/-- The function `ProtocolV2::extractPayload`. The result is `none` where the
iterator range `[begin + 9, begin + (9 + len - 4))` handed to the `Parameter`
constructor is not a valid range of `raw_packet`, which the source leaves
undefined. -/
def extractPayload (raw_packet : Parameter) : Option (MotorID × ErrorCode × Parameter) :=
  if ¬ validatePacket raw_packet then
    some (MotorIDInvalid, 0, [])
  else
    let motorID : MotorID := raw_packet.getD 4 0
    let errorCode : ErrorCode := raw_packet.getD 8 0
    let len := (raw_packet.getD 5 0).val + ((raw_packet.getD 6 0).val <<< 8)
    if 9 ≤ 9 + len - 4 ∧ 9 + len - 4 ≤ raw_packet.length then
      let payload := (raw_packet.take (9 + len - 4)).drop 9
      let payload := removeEscapes payload
      some (motorID, errorCode, payload)
    else
      none

/-! ## Auxiliary definitions used by the statements and proofs -/

/-- The eight header bytes that `createPacket` writes in front of an escaped payload of
`n` bytes. -/
def packetHeader (motorID : MotorID) (instr : Instruction) (n : Nat) : Parameter :=
  [0xff, 0xff, 0xfd, 0x00, motorID, toByte (((n + 3) >>> 0) &&& 0xff),
    toByte (((n + 3) >>> 8) &&& 0xff), instr.toByte]

/-- The table index used by one step of the checksum loop. -/
def checksumIndex (checkSum : Nat) (b : Byte) : Nat :=
  ((checkSum / 256) % 256) ^^^ b.val

/-- The byte sequence `data` with the bit at position `n` flipped: bit `n % 8` of the
byte at offset `n / 8`. -/
def flipBit (data : Parameter) (n : Nat) : Parameter :=
  data.set (n / 8) (toByte ((data.getD (n / 8) 0).val ^^^ (1 <<< (n % 8))))

/-! ## Baud rates, field encodings and bulk read blocks -/

/-- The function `baudIndexToBaudrate` of `dynamixel.h`; the `std::runtime_error` is the
`error` result. -/
def baudIndexToBaudrate (baudIdx : Fin 256) : Except String Nat :=
  if baudIdx.val < 250 then
    .ok (2000000 / (baudIdx.val + 1))
  else
    match baudIdx.val with
    | 250 => .ok 2250000
    | 251 => .ok 2500000
    | 252 => .ok 3000000
    | _ => .error "no valid baud index given"

/-- The function `ProtocolV2::convertLength`; `len` is a `size_t`. -/
def convertLength (len : Nat) : Parameter :=
  [toByte (len &&& 0xff), toByte ((len >>> 8) &&& 0xff)]

/-- The function `ProtocolV2::convertAddress`; `addr` is a signed `int`, on which `&` and
`>>` are the two's complement bitwise and and the arithmetic shift. -/
def convertAddress (addr : Int) : Parameter :=
  [toByte (Int.toNat (Int.land addr 0xff)), toByte (Int.toNat (Int.land (addr >>> (8 : Nat)) 0xff))]

/-- One iteration of the loop of `buildBulkReadPackage` over the tuples
`(id, baseRegister, length)`. -/
def bulkReadStep (txBuf : List Byte) (motor : MotorID × Int × Nat) : List Byte :=
  let txBuf := txBuf ++ [motor.1]
  let txBuf := (convertAddress motor.2.1).foldl (fun t b => t ++ [b]) txBuf
  let txBuf := (convertLength motor.2.2).foldl (fun t b => t ++ [b]) txBuf
  txBuf

/-- The function `ProtocolV2::buildBulkReadPackage`. -/
def buildBulkReadPackage (motors : List (MotorID × Int × Nat)) : List Byte :=
  motors.foldl bulkReadStep []

/-- The value of a little-endian 16 bit field held in the first two bytes of a list. -/
def decodeLE16 (bytes : List Byte) : Nat :=
  (bytes.getD 0 0).val + 256 * (bytes.getD 1 0).val

/-! ## Transport, clock and the read loop -/

/-- The type `Timeout` of `USB2Dynamixel.h`: the count of a `std::chrono::microseconds`,
a signed integer. -/
abbrev Timeout := Int

/-- Modelled from the spec: the serial transport behind `file_io::read` and the clock
behind `std::chrono::high_resolution_clock::now`, which are declared outside the given
sources. `chunk k` is the number of bytes that the transport has ready at its `k`-th
call and `clock k` is the value that the `k`-th call of `now` returns, in microseconds. -/
structure Env where
  chunk : Nat → Nat
  clock : Nat → Int

/-- The calls made to the clock and the transport, in the order in which they happen. -/
inductive Event where
  | now (t : Int)
  | read (requested : Nat) (delivered : Nat)
  | flushRead
  deriving DecidableEq, Repr

/-- The state of the transport and the clock: the bytes that the bus still delivers, the
number of transport calls and of clock readings so far, and the calls made so far. -/
structure World where
  stream : List Byte
  reads : Nat
  ticks : Nat
  log : List Event
  deriving DecidableEq, Repr

/-- The call `std::chrono::high_resolution_clock::now()`. -/
def clockNow (env : Env) (w : World) : Int × World :=
  (env.clock w.ticks,
    { w with ticks := w.ticks + 1, log := w.log ++ [Event.now (env.clock w.ticks)] })

/-- Modelled from the spec: `file_io::read(port, n)` is the blocking read of the transport
contract, which returns at least 1 and at most `n` bytes. The result is `none` where no
byte is left on the bus, so that the call never returns. -/
def fileRead (env : Env) (w : World) (n : Nat) : Option (Parameter × World) :=
  if w.stream = [] then
    none
  else
    let k := min n (max 1 (env.chunk w.reads))
    some (w.stream.take k,
      { w with stream := w.stream.drop k, reads := w.reads + 1,
               log := w.log ++ [Event.read n (w.stream.take k).length] })

/-- Modelled from the spec: `file_io::flushRead(port)` discards the input that the
transport has ready. -/
def flushRead (env : Env) (w : World) : World :=
  { w with stream := w.stream.drop (env.chunk w.reads), reads := w.reads + 1,
           log := w.log ++ [Event.flushRead] }

/-- The deadline test `(timeout.count() != 0) and (now() - startTime >= timeout)` of
`synchronizeOnHeader` and `readPacket`; the clock is read only for a non-zero timeout. -/
def deadlineReached (env : Env) (timeout : Timeout) (startTime : Int) (w : World) :
    Bool × World :=
  if timeout ≠ 0 then
    let r := clockNow env w
    (decide (r.1 - startTime ≥ timeout), r.2)
  else
    (false, w)

/-- The array `syncMarker` of `synchronizeOnHeader`. -/
def syncMarker : Parameter := [0xff, 0xff, 0xfd, 0x00]

/-- The scan loop of `synchronizeOnHeader`, started with the part of `preambleBuffer`
from offset `indexOfSyncMarker` on: it runs while `indexOfSyncMarker <= size - 4` and
breaks at the first offset where `memcmp` finds the four marker bytes. The result is the
final value of `indexOfSyncMarker`. -/
def scanSyncMarker : Parameter → Nat → Nat
  | [], indexOfSyncMarker => indexOfSyncMarker
  | b :: rest, indexOfSyncMarker =>
    if (b :: rest).length < 4 then
      indexOfSyncMarker
    else if (b :: rest).take 4 = syncMarker then
      indexOfSyncMarker
    else
      scanSyncMarker rest (indexOfSyncMarker + 1)

/-- The loop of `synchronizeOnHeader`, one iteration per unit of `fuel`. The packed
`Header` has 9 bytes: marker (4), `id` (1), `length` (2, read by `memcpy` on a
little-endian host), `instruction` (1), `error` (1). The comparison
`header.length+4 >= static_cast<int>(numParameters)` is taken on natural numbers, as it is
for every `numParameters` below `2 ^ 31`. The result is `none` where a read never
returns. -/
def synchronizeLoop (env : Env) (timeout : Timeout) (expectedMotorID : MotorID)
    (numParameters : Nat) (startTime : Int) :
    Nat → Parameter → World → Option (Parameter × World)
  | 0, _, _ => none
  | fuel + 1, preambleBuffer, w =>
    let test := deadlineReached env timeout startTime w
    if test.1 then
      some ([], test.2)
    else
      let w := test.2
      let indexOfSyncMarker := scanSyncMarker preambleBuffer 0
      let preambleBuffer := preambleBuffer.drop indexOfSyncMarker
      let bytesToRead := Int.toNat (max 1 ((9 + 2 : Int) - (preambleBuffer.length : Int)))
      match fileRead env w bytesToRead with
      | none => none
      | some (buffer, w) =>
        let preambleBuffer := preambleBuffer ++ buffer
        if preambleBuffer.length ≥ 9 then
          if preambleBuffer.take 4 = syncMarker ∧
              decodeLE16 (preambleBuffer.drop 5) + 4 ≥ numParameters then
            if expectedMotorID ≠ 0xfe then
              if expectedMotorID = preambleBuffer.getD 4 0 then
                some (preambleBuffer, w)
              else
                synchronizeLoop env timeout expectedMotorID numParameters startTime fuel [] w
            else
              some (preambleBuffer, w)
          else
            synchronizeLoop env timeout expectedMotorID numParameters startTime fuel
              preambleBuffer w
        else
          synchronizeLoop env timeout expectedMotorID numParameters startTime fuel
            preambleBuffer w

/-- The function `ProtocolV2::synchronizeOnHeader`. Every iteration of its loop takes at
least one byte from the bus, so one unit of fuel per byte left on the bus and one more
are enough for the loop. -/
def synchronizeOnHeader (env : Env) (timeout : Timeout) (expectedMotorID : MotorID)
    (numParameters : Nat) (w : World) : Option (Parameter × World) :=
  let start := clockNow env w
  synchronizeLoop env timeout expectedMotorID numParameters start.1
    (start.2.stream.length + 1) [] start.2

/-- The loop `while (rxBuf.size() < incomingLength and not timeoutFlag)` of `readPacket`,
one iteration per unit of `fuel`; the result is `(rxBuf, timeoutFlag)` and the state. -/
def completeLoop (env : Env) (timeout : Timeout) (startTime : Int) (incomingLength : Nat) :
    Nat → Parameter → Bool → World → Option (Parameter × Bool × World)
  | 0, _, _, _ => none
  | fuel + 1, rxBuf, timeoutFlag, w =>
    if rxBuf.length < incomingLength ∧ ¬ timeoutFlag then
      match fileRead env w (incomingLength - rxBuf.length) with
      | none => none
      | some (buffer, w) =>
        let rxBuf := rxBuf ++ buffer
        let test := deadlineReached env timeout startTime w
        completeLoop env timeout startTime incomingLength fuel rxBuf test.1 test.2
    else
      some (rxBuf, timeoutFlag, w)

/-- The result of `readPacket` on its final failure path. -/
def timedOutResult : Bool × MotorID × ErrorCode × Parameter :=
  (true, MotorIDInvalid, 0, [])

/-- The loop `while (not timeoutFlag)` of `readPacket`, one iteration per unit of `fuel`,
followed by the failure path after the loop. The result is `none` where a read never
returns or where `extractPayload` is undefined. -/
def readPacketLoop (env : Env) (timeout : Timeout) (expectedMotorID : MotorID)
    (numParameters : Nat) (startTime : Int) :
    Nat → World → Option ((Bool × MotorID × ErrorCode × Parameter) × World)
  | 0, _ => none
  | fuel + 1, w =>
    match synchronizeOnHeader env timeout expectedMotorID numParameters w with
    | none => none
    | some (rxBuf, w) =>
      if rxBuf.length < 9 then
        some (timedOutResult, flushRead env w)
      else
        let incomingLength := (rxBuf.getD 5 0).val + ((rxBuf.getD 6 0).val <<< 8) + 7
        match completeLoop env timeout startTime incomingLength (w.stream.length + 1)
            rxBuf false w with
        | none => none
        | some (rxBuf, timeoutFlag, w) =>
          if timeoutFlag then
            some (timedOutResult, flushRead env w)
          else
            match extractPayload rxBuf with
            | none => none
            | some (motorID, errorCode, payload) =>
              if payload.length ≠ numParameters ∨ motorID ≠ expectedMotorID then
                readPacketLoop env timeout expectedMotorID numParameters startTime fuel w
              else
                some ((false, motorID, errorCode, payload), w)

/-- The function `ProtocolV2::readPacket`, with the state of the transport and the clock
after it. Every iteration of its loop that does not leave it takes at least nine bytes
from the bus, so one unit of fuel per byte left on the bus and one more are enough. -/
def readPacket (env : Env) (timeout : Timeout) (expectedMotorID : MotorID)
    (numParameters : Nat) (w : World) :
    Option ((Bool × MotorID × ErrorCode × Parameter) × World) :=
  let start := clockNow env w
  readPacketLoop env timeout expectedMotorID numParameters start.1
    (start.2.stream.length + 1) start.2

/-- The state in which nothing has been read yet and `stream` is still to come. -/
def World.init (stream : List Byte) : World :=
  { stream := stream, reads := 0, ticks := 0, log := [] }

/-- Whether, in a sequence of calls, every transport read happens before the clock has
been read at `timeout` or more after `startTime`; `expired` tells whether such a reading
has been seen already. -/
def readsBeforeDeadline (startTime : Int) (timeout : Timeout) : Bool → List Event → Bool
  | _, [] => true
  | expired, Event.now t :: rest =>
    readsBeforeDeadline startTime timeout (expired || decide (t - startTime ≥ timeout)) rest
  | expired, Event.read _ _ :: rest =>
    !expired && readsBeforeDeadline startTime timeout expired rest
  | expired, Event.flushRead :: rest =>
    readsBeforeDeadline startTime timeout expired rest

/-- The same for the calls of one run that starts by reading the clock: the deadline is
measured from that first reading. -/
def withinDeadline (timeout : Timeout) : List Event → Bool
  | Event.now startTime :: rest => readsBeforeDeadline startTime timeout false rest
  | _ => true

/-- A transport that has 64 bytes ready at every call, and a clock that stands still. -/
def Env.steady : Env :=
  { chunk := fun _ => 64, clock := fun _ => 0 }

/-- A transport that has 64 bytes ready at every call, and a clock that reads 0 four
times and 1000 from then on. -/
def Env.late : Env :=
  { chunk := fun _ => 64, clock := fun k => if k < 4 then 0 else 1000 }

/-- The part of one iteration of the loop of `synchronizeOnHeader` that follows the read:
the test of the buffered header, which returns the buffer or goes on with the next
iteration. -/
def synchronizeCheck (env : Env) (timeout : Timeout) (expectedMotorID : MotorID)
    (numParameters : Nat) (startTime : Int) (fuel : Nat) (preambleBuffer : Parameter)
    (w : World) : Option (Parameter × World) :=
  if preambleBuffer.length ≥ 9 then
    if preambleBuffer.take 4 = syncMarker ∧
        decodeLE16 (preambleBuffer.drop 5) + 4 ≥ numParameters then
      if expectedMotorID ≠ 0xfe then
        if expectedMotorID = preambleBuffer.getD 4 0 then
          some (preambleBuffer, w)
        else
          synchronizeLoop env timeout expectedMotorID numParameters startTime fuel [] w
      else
        some (preambleBuffer, w)
    else
      synchronizeLoop env timeout expectedMotorID numParameters startTime fuel
        preambleBuffer w
  else
    synchronizeLoop env timeout expectedMotorID numParameters startTime fuel
      preambleBuffer w

/-! ## Reference for the checksum -/

/-- Reference, from the words of the claim: one bit step of the MSB-first, non-reflected
CRC-16 with generator polynomial 0x8005. The register is shifted left by one bit, and
the polynomial is added when the bit shifted out of the 16 bit register is set. -/
def crc16Round (crc : Nat) : Nat :=
  if crc.testBit 15 then
    ((crc <<< 1) ^^^ 0x8005) % 65536
  else
    (crc <<< 1) % 65536

/-- Reference, from the words of the claim: the bit-by-bit CRC over one more byte, which
is added to the high byte of the register and followed by eight bit steps. -/
def crc16Byte (crc : Nat) (b : Byte) : Nat :=
  crc16Round^[8] (crc ^^^ (b.val <<< 8))

/-- Reference, from the words of the claim: the bit-by-bit CRC-16 of a byte sequence with
initial value 0 and no final XOR. -/
def crc16Bitwise (data : Parameter) : Nat :=
  data.foldl crc16Byte 0

/-- Reference, from the words of the claim: the bit-by-bit CRC-16 emitted low byte
first. -/
def crc16BitwiseBytes (data : Parameter) : Parameter :=
  [toByte (crc16Bitwise data % 256), toByte (crc16Bitwise data / 256)]

/-! ## The register layout and the model catalog of the Pro series (`LayoutPro.cpp`) -/

namespace pro

/-- Modelled from the spec: the enumeration `Register` is declared in `LayoutPro.h`; these
are its enumerators that `LayoutPro.cpp` names. -/
inductive Register where
  | MODEL_NUMBER
  | MODEL_INFORMATION
  | FIRMWARE_VERSION
  | ID
  | BAUD_RATE
  | RETURN_DELAY_TIME
  | OPERATING_MODE
  | HOMING_OFFSET
  | MOVING_THRESHOLD
  | TEMPERATURE_LIMIT
  | MAX_VOLTAGE_LIMIT
  | MIN_VOLTAGE_LIMIT
  | ACCELERATION_LIMIT
  | TORQUE_LIMIT
  | VELOCITY_LIMIT
  | MAX_POSITION_LIMIT
  | MIN_POSITION_LIMIT
  | EXTERNAL_PORT_MODE_1
  | EXTERNAL_PORT_MODE_2
  | EXTERNAL_PORT_MODE_3
  | EXTERNAL_PORT_MODE_4
  | SHUTDOWN
  | INDIRECT_ADDRESS_BLOCK
  | TORQUE_ENABLE
  | LED_RED
  | LED_GREEN
  | LED_BLUE
  | VELOCITY_I_GAIN
  | VELOCITY_P_GAIN
  | POSITION_P_GAIN
  | GOAL_POSITION
  | GOAL_VELOCITY
  | GOAL_TORQUE
  | GOAL_ACCELERATION
  | MOVING
  | PRESENT_POSITION
  | PRESENT_VELOCITY
  | PRESENT_CURRENT
  | PRESENT_INPUT_VOLTAGE
  | PRESENT_TEMPERATURE
  | EXTERNAL_PORT_DATA_1
  | EXTERNAL_PORT_DATA_2
  | EXTERNAL_PORT_DATA_3
  | EXTERNAL_PORT_DATA_4
  | REGISTERED_INSTRUCTION
  | STATUS_RETURN_LEVEL
  | HARDWARE_ERROR_STATUS
  | INDIRECT_DATA_BLOCK
  deriving DecidableEq, Repr, Fintype

/-- Modelled from the spec: the access mode `meta::LayoutField::Access` of a register,
read-only or read-write. -/
inductive Access where
  | R
  | RW
  deriving DecidableEq, Repr

/-- Modelled from the spec: the descriptor `meta::LayoutField` of a register: byte width,
whether it lies in the persistent memory region, access mode, name and description. -/
structure LayoutField where
  length : Nat
  romArea : Bool
  access : Access
  name : String
  description : String
  deriving DecidableEq, Repr

/-- Modelled from the spec: the protocol generation tag `LayoutType` of a model. -/
inductive LayoutType where
  | Pro
  deriving DecidableEq, Repr

/-- Modelled from the spec: the arguments of `meta::buildConverters`, which builds the
pair of unit conversion functions from a resolution, an offset and a scale. -/
structure Converters where
  resolution : Int
  offset : Int
  scale : ℚ
  deriving DecidableEq

/-- Modelled from the spec: the per model record `meta::Info<Register>`; the default
layout maps a register to its default value, where `none` stands for the value `{}`. -/
structure Info where
  modelNumber : Nat
  layoutType : LayoutType
  shortName : String
  motorNames : List String
  converterFunctions : Converters
  defaultLayout : List (Register × Option Int)

/-- The assignment `m[k] = v` on a `std::map`, kept as a list of entries with distinct
keys: the value of an existing key is replaced, a new key gets a new entry. -/
def mapSet {κ ν : Type} [DecidableEq κ] : List (κ × ν) → κ → ν → List (κ × ν)
  | [], k, v => [(k, v)]
  | (k', v') :: rest, k, v =>
    if k' = k then (k, v) :: rest else (k', v') :: mapSet rest k v

/-- The lookup `m.at(k)` on a `std::map`; `none` where `at` throws. -/
def mapAt {κ ν : Type} [DecidableEq κ] : List (κ × ν) → κ → Option ν
  | [], _ => none
  | (k', v') :: rest, k => if k' = k then some v' else mapAt rest k

/-- The function `MotorLayoutInfo::getInfos`. -/
def MotorLayoutInfo.getInfos : List (Register × LayoutField) := [
    (Register.MODEL_NUMBER, ⟨2, true, Access.R, "Model Number", "Model Number"⟩),
    (Register.MODEL_INFORMATION, ⟨4, true, Access.R, "Model Information", "Model Information"⟩),
    (Register.FIRMWARE_VERSION, ⟨1, true, Access.R, "Firmware Version", "Firmware Version"⟩),
    (Register.ID, ⟨1, true, Access.RW, "ID", "ID"⟩),
    (Register.BAUD_RATE, ⟨1, true, Access.RW, "Baud Rate", "Baud Rate"⟩),
    (Register.RETURN_DELAY_TIME, ⟨1, true, Access.RW, "Return Delay Time", "Return Delay Time"⟩),
    (Register.OPERATING_MODE, ⟨1, true, Access.RW, "Operating Mode", "Operating Mode"⟩),
    (Register.HOMING_OFFSET, ⟨4, true, Access.RW, "Homing Offset", "Homing Offset"⟩),
    (Register.MOVING_THRESHOLD, ⟨4, true, Access.RW, "Moving Threshold", "Moving Threshold"⟩),
    (Register.TEMPERATURE_LIMIT, ⟨1, true, Access.RW, "Temperature Limit", "Temperature Limit"⟩),
    (Register.MAX_VOLTAGE_LIMIT, ⟨2, true, Access.RW, "Max Voltage Limit", "Max Voltage Limit"⟩),
    (Register.MIN_VOLTAGE_LIMIT, ⟨2, true, Access.RW, "Min Voltage Limit", "Min Voltage Limit"⟩),
    (Register.ACCELERATION_LIMIT, ⟨4, true, Access.RW, "Acceleration Limit", "Acceleration Limit"⟩),
    (Register.TORQUE_LIMIT, ⟨2, true, Access.RW, "Torque Limit", "Torque Limit"⟩),
    (Register.VELOCITY_LIMIT, ⟨4, true, Access.RW, "Velocity Limit", "Velocity Limit"⟩),
    (Register.MAX_POSITION_LIMIT, ⟨4, true, Access.RW, "Max Position Limit", "Max Position Limit"⟩),
    (Register.MIN_POSITION_LIMIT, ⟨4, true, Access.RW, "Min Position Limit", "Min Position Limit"⟩),
    (Register.EXTERNAL_PORT_MODE_1, ⟨1, true, Access.RW, "External Port Mode 1", "External Port Mode 1"⟩),
    (Register.EXTERNAL_PORT_MODE_2, ⟨1, true, Access.RW, "External Port Mode 2", "External Port Mode 2"⟩),
    (Register.EXTERNAL_PORT_MODE_3, ⟨1, true, Access.RW, "External Port Mode 3", "External Port Mode 3"⟩),
    (Register.EXTERNAL_PORT_MODE_4, ⟨1, true, Access.RW, "External Port Mode 4", "External Port Mode 4"⟩),
    (Register.SHUTDOWN, ⟨1, true, Access.RW, "Shutdown", "Shutdown"⟩),
    (Register.INDIRECT_ADDRESS_BLOCK, ⟨512, true, Access.RW, "Indirect Addresses Block", "Indirect Addresses Block"⟩),
    (Register.TORQUE_ENABLE, ⟨1, false, Access.RW, "Torque Enable", "Torque Enable"⟩),
    (Register.LED_RED, ⟨1, false, Access.RW, "LED Red", "LED Red"⟩),
    (Register.LED_GREEN, ⟨1, false, Access.RW, "LED Green", "LED Green"⟩),
    (Register.LED_BLUE, ⟨1, false, Access.RW, "LED Blue", "LED Blue"⟩),
    (Register.VELOCITY_I_GAIN, ⟨2, false, Access.RW, "Velocity I Gain", "Velocity I Gain"⟩),
    (Register.VELOCITY_P_GAIN, ⟨2, false, Access.RW, "Velocity P Gain", "Velocity P Gain"⟩),
    (Register.POSITION_P_GAIN, ⟨2, false, Access.RW, "Position P Gain", "Position P Gain"⟩),
    (Register.GOAL_POSITION, ⟨4, false, Access.RW, "Goal Position", "Goal Position"⟩),
    (Register.GOAL_VELOCITY, ⟨4, false, Access.RW, "Goal Velocity", "Goal Velocity"⟩),
    (Register.GOAL_TORQUE, ⟨2, false, Access.RW, "Goal Torque", "Goal Torque"⟩),
    (Register.GOAL_ACCELERATION, ⟨4, false, Access.RW, "Goal Acceleration", "Goal Acceleration"⟩),
    (Register.MOVING, ⟨1, false, Access.R, "Moving", "Moving"⟩),
    (Register.PRESENT_POSITION, ⟨4, false, Access.R, "Present Position", "Present Position"⟩),
    (Register.PRESENT_VELOCITY, ⟨4, false, Access.R, "Present Velocity", "Present Velocity"⟩),
    (Register.PRESENT_CURRENT, ⟨2, false, Access.R, "Present Current", "Present Current"⟩),
    (Register.PRESENT_INPUT_VOLTAGE, ⟨2, false, Access.R, "Present Input_voltage", "Present Input_voltage"⟩),
    (Register.PRESENT_TEMPERATURE, ⟨1, false, Access.R, "Present Temperature", "Present Temperature"⟩),
    (Register.EXTERNAL_PORT_DATA_1, ⟨2, false, Access.RW, "External Port Data 1", "External Port Data 1"⟩),
    (Register.EXTERNAL_PORT_DATA_2, ⟨2, false, Access.RW, "External Port Data 2", "External Port Data 2"⟩),
    (Register.EXTERNAL_PORT_DATA_3, ⟨2, false, Access.RW, "External Port Data 3", "External Port Data 3"⟩),
    (Register.EXTERNAL_PORT_DATA_4, ⟨2, false, Access.RW, "External Port Data 4", "External Port Data 4"⟩),
    (Register.REGISTERED_INSTRUCTION, ⟨1, false, Access.R, "Registered Instruction", "Registered Instruction"⟩),
    (Register.STATUS_RETURN_LEVEL, ⟨1, false, Access.RW, "Status Return Level", "Status Return Level"⟩),
    (Register.HARDWARE_ERROR_STATUS, ⟨1, false, Access.R, "Hardware Error Status", "Hardware Error Status"⟩),
    (Register.INDIRECT_DATA_BLOCK, ⟨256, false, Access.RW, "Indirect Data Block", "Indirect Data Block"⟩)
  ]

/-- The entry of model 46352 in the initialiser of `data` in `getDefaults`. -/
def baseInfo : Info :=
  { modelNumber := 46352
    layoutType := LayoutType.Pro
    shortName := "M54-60-S250-R"
    motorNames := ["M54-60-S250-R"]
    converterFunctions := Converters.mk 251417 0 ((397746 : ℚ) / 100000000)
    defaultLayout := [
      (Register.MODEL_NUMBER, some 46352),
      (Register.MODEL_INFORMATION, none),
      (Register.FIRMWARE_VERSION, none),
      (Register.ID, some 1),
      (Register.BAUD_RATE, some 1),
      (Register.RETURN_DELAY_TIME, some 250),
      (Register.OPERATING_MODE, some 3),
      (Register.HOMING_OFFSET, some 0),
      (Register.MOVING_THRESHOLD, some 50),
      (Register.TEMPERATURE_LIMIT, some 80),
      (Register.MAX_VOLTAGE_LIMIT, some 400),
      (Register.MIN_VOLTAGE_LIMIT, some 150),
      (Register.ACCELERATION_LIMIT, none),
      (Register.TORQUE_LIMIT, some 180),
      (Register.VELOCITY_LIMIT, some 8000),
      (Register.MAX_POSITION_LIMIT, some 125708),
      (Register.MIN_POSITION_LIMIT, some (-125708)),
      (Register.EXTERNAL_PORT_MODE_1, some 0),
      (Register.EXTERNAL_PORT_MODE_2, some 0),
      (Register.EXTERNAL_PORT_MODE_3, some 0),
      (Register.EXTERNAL_PORT_MODE_4, some 0),
      (Register.SHUTDOWN, some 58),
      (Register.TORQUE_ENABLE, some 0),
      (Register.LED_RED, some 0),
      (Register.LED_GREEN, some 0),
      (Register.LED_BLUE, some 0),
      (Register.VELOCITY_I_GAIN, some 16),
      (Register.VELOCITY_P_GAIN, some 256),
      (Register.POSITION_P_GAIN, some 32),
      (Register.GOAL_POSITION, none),
      (Register.GOAL_VELOCITY, some 0),
      (Register.GOAL_TORQUE, some 0),
      (Register.GOAL_ACCELERATION, some 0),
      (Register.MOVING, none),
      (Register.PRESENT_POSITION, none),
      (Register.PRESENT_VELOCITY, none),
      (Register.PRESENT_CURRENT, none),
      (Register.PRESENT_INPUT_VOLTAGE, none),
      (Register.PRESENT_TEMPERATURE, none),
      (Register.EXTERNAL_PORT_DATA_1, some 0),
      (Register.EXTERNAL_PORT_DATA_2, some 0),
      (Register.EXTERNAL_PORT_DATA_3, some 0),
      (Register.EXTERNAL_PORT_DATA_4, some 0),
      (Register.REGISTERED_INSTRUCTION, some 0),
      (Register.STATUS_RETURN_LEVEL, some 2),
      (Register.HARDWARE_ERROR_STATUS, some 0)
    ] }

/-- The assignment `m.defaultLayout[r] = v`. -/
def Info.setDefault (m : Info) (r : Register) (v : Int) : Info :=
  { m with defaultLayout := mapSet m.defaultLayout r (some v) }

/-- The lambda `newMotor` of `getDefaults`: the entry `data[number]` becomes a copy of
`data.at(46352)` with its own model number, names and `MODEL_NUMBER` default. The result
is the changed map and the entry `m`. -/
def newMotor (data : List (Nat × Info)) (number : Nat) (shortName : String)
    (names : List String) : Option (List (Nat × Info) × Info) := do
  let m ← mapAt data 46352
  let m := { m with modelNumber := number }
  let m := { m with shortName := shortName }
  let m := { m with motorNames := names }
  let m := m.setDefault Register.MODEL_NUMBER (number : Int)
  pure (mapSet data number m, m)

/-- The block of model 46096 in `getDefaults`; the changed entry `m` is stored back under
its key. -/
def block46096 (data : List (Nat × Info)) : Option (List (Nat × Info)) :=
  match newMotor data 46096 "M54-40-S250-R" ["M54-40-S250-R"] with
  | none => none
  | some (data, m) =>
    let m : Info := { m with converterFunctions := Converters.mk 251417 0 ((397746 : ℚ) / 100000000) }
    let m : Info := m.setDefault Register.TORQUE_LIMIT (120 : Int)
    some (mapSet data 46096 m)

/-- The block of model 43288 in `getDefaults`; the changed entry `m` is stored back under
its key. -/
def block43288 (data : List (Nat × Info)) : Option (List (Nat × Info)) :=
  match newMotor data 43288 "M42-10-S260-R" ["M42-10-S260-R"] with
  | none => none
  | some (data, m) =>
    let m : Info := { m with converterFunctions := Converters.mk 263187 0 ((389076 : ℚ) / 100000000) }
    let m : Info := m.setDefault Register.TORQUE_LIMIT (300 : Int)
    let m : Info := m.setDefault Register.MAX_POSITION_LIMIT (131593 : Int)
    let m : Info := m.setDefault Register.MIN_POSITION_LIMIT (-131593 : Int)
    let m : Info := m.setDefault Register.VELOCITY_I_GAIN (72 : Int)
    let m : Info := m.setDefault Register.VELOCITY_P_GAIN (520 : Int)
    let m : Info := m.setDefault Register.POSITION_P_GAIN (32 : Int)
    some (mapSet data 43288 m)

/-- The block of model 54024 in `getDefaults`; the changed entry `m` is stored back under
its key. -/
def block54024 (data : List (Nat × Info)) : Option (List (Nat × Info)) :=
  match newMotor data 54024 "H54-200-S500-R" ["H54-200-S500-R"] with
  | none => none
  | some (data, m) =>
    let m : Info := { m with converterFunctions := Converters.mk 501923 0 ((199234 : ℚ) / 100000000) }
    let m : Info := m.setDefault Register.TORQUE_LIMIT (620 : Int)
    let m : Info := m.setDefault Register.VELOCITY_LIMIT (17000 : Int)
    let m : Info := m.setDefault Register.MAX_POSITION_LIMIT (250961 : Int)
    let m : Info := m.setDefault Register.MIN_POSITION_LIMIT (-250961 : Int)
    let m : Info := m.setDefault Register.VELOCITY_I_GAIN (14 : Int)
    let m : Info := m.setDefault Register.VELOCITY_P_GAIN (399 : Int)
    let m : Info := m.setDefault Register.POSITION_P_GAIN (32 : Int)
    some (mapSet data 54024 m)

/-- The block of model 53768 in `getDefaults`; the changed entry `m` is stored back under
its key. -/
def block53768 (data : List (Nat × Info)) : Option (List (Nat × Info)) :=
  match newMotor data 53768 "H54-100-S500-R" ["H54-100-S500-R"] with
  | none => none
  | some (data, m) =>
    let m : Info := { m with converterFunctions := Converters.mk 501923 0 ((199234 : ℚ) / 100000000) }
    let m : Info := m.setDefault Register.TORQUE_LIMIT (310 : Int)
    let m : Info := m.setDefault Register.VELOCITY_LIMIT (17000 : Int)
    let m : Info := m.setDefault Register.MAX_POSITION_LIMIT (250961 : Int)
    let m : Info := m.setDefault Register.MIN_POSITION_LIMIT (-250961 : Int)
    let m : Info := m.setDefault Register.VELOCITY_I_GAIN (16 : Int)
    let m : Info := m.setDefault Register.VELOCITY_P_GAIN (256 : Int)
    let m : Info := m.setDefault Register.POSITION_P_GAIN (32 : Int)
    some (mapSet data 53768 m)

/-- The block of model 51200 in `getDefaults`; the changed entry `m` is stored back under
its key. -/
def block51200 (data : List (Nat × Info)) : Option (List (Nat × Info)) :=
  match newMotor data 51200 "H42-20-S300-R" ["H42-20-S300-R"] with
  | none => none
  | some (data, m) =>
    let m : Info := { m with converterFunctions := Converters.mk 303750 0 ((329218 : ℚ) / 100000000) }
    let m : Info := m.setDefault Register.ACCELERATION_LIMIT (255 : Int)
    let m : Info := m.setDefault Register.TORQUE_LIMIT (465 : Int)
    let m : Info := m.setDefault Register.VELOCITY_LIMIT (10300 : Int)
    let m : Info := m.setDefault Register.MAX_POSITION_LIMIT (151875 : Int)
    let m : Info := m.setDefault Register.MIN_POSITION_LIMIT (-151875 : Int)
    let m : Info := m.setDefault Register.VELOCITY_I_GAIN (40 : Int)
    let m : Info := m.setDefault Register.VELOCITY_P_GAIN (440 : Int)
    let m : Info := m.setDefault Register.POSITION_P_GAIN (32 : Int)
    some (mapSet data 51200 m)

/-- The function `MotorLayoutInfo::getDefaults`: the map `data` after the first call, when
the blocks guarded by `firstRun` have run; `none` where `data.at` throws. -/
def MotorLayoutInfo.getDefaults : Option (List (Nat × Info)) :=
  (((((some [(46352, baseInfo)]).bind block46096).bind block43288).bind block54024).bind
    block53768).bind block51200

/-- The entry of register `r` in the default layout of the model stored under `key` in
the catalog returned by `getDefaults`; `none` where there is no such model or no entry. -/
def defaultEntry (key : Nat) (r : Register) : Option (Option Int) := do
  let data ← MotorLayoutInfo.getDefaults
  let m ← mapAt data key
  mapAt m.defaultLayout r

/-- The field `modelNumber` of the model stored under `key` in the catalog. -/
def modelNumberOf (key : Nat) : Option Nat := do
  let data ← MotorLayoutInfo.getDefaults
  let m ← mapAt data key
  pure m.modelNumber

/-- The keys of the catalog returned by `getDefaults`. -/
def catalogKeys : List Nat :=
  match MotorLayoutInfo.getDefaults with
  | none => []
  | some data => data.map Prod.fst

end pro

end dynamixel

/-! ## The command-line tokenizer

`sargparse/ArgumentParsing.cpp`. A `std::string` is the list of its characters; the argument
vector `argv[0..argc)` is a list of strings. The two callbacks of `tokenize` are modelled by
the lists of the calls made to them, in order; every call of the command callback comes
before every call of the parameter callback, since the first loop ends before the second one
starts. -/

namespace sargp

/-- A string, as the list of its characters. -/
abbrev Str := List Char

/-- The call `str.find(pat, 0)` of `std::string`: the first position at which `pat` occurs in
`str`, or `none` for `npos`. -/
def find : Str → Str → Option Nat
  | [], pat => if pat = [] then some 0 else none
  | c :: str, pat =>
    if pat.isPrefixOf (c :: str) then some 0 else (find str pat).map (· + 1)

/-- The function `isArgName`: `str.find("--", 0) == 0`. -/
def isArgName (str : Str) : Bool :=
  find str ['-', '-'] == some 0

/-- The first loop of `tokenize`, run on the arguments `argv[idx..argc)`: the arguments
handed to the command callback, and the arguments left at the `break` (or none, when `idx`
reaches `argc`). -/
def commandLoop : List Str → List Str × List Str
  | [] => ([], [])
  | curArgName :: rest =>
    if isArgName curArgName then ([], curArgName :: rest)
    else
      let (commands, left) := commandLoop rest
      (curArgName :: commands, left)

/-- The inner loop of the second loop of `tokenize`, run on the arguments `argv[idx..argc)`:
the vector `arguments` it fills, and the arguments left at the `break`. -/
def argumentsLoop : List Str → List Str × List Str
  | [] => ([], [])
  | v :: rest =>
    if isArgName v then ([], v :: rest)
    else
      let (arguments, left) := argumentsLoop rest
      (v :: arguments, left)

/-- The second loop of `tokenize`, `while (idx < argc)`, run on the arguments
`argv[idx..argc)` for at most `fuel` iterations: the calls `paramCB(argName, arguments)` it
makes. The name is `argv[idx] + 2`, the string without its first two characters. -/
def paramLoop : Nat → List Str → List (Str × List Str)
  | 0, _ => []
  | _, [] => []
  | fuel + 1, arg :: rest =>
    let argName := arg.drop 2
    let (arguments, left) := argumentsLoop rest
    (argName, arguments) :: paramLoop fuel left

/-- The function `tokenize`: the calls of the command callback and the calls of the
parameter callback. The second loop gets one iteration for each argument left by the first,
which is the most it can make since each iteration consumes at least one argument. -/
def tokenize (argv : List Str) : List Str × List (Str × List Str) :=
  let (commands, left) := commandLoop argv
  (commands, paramLoop left.length left)

end sargp

namespace dynamixel

/-! ## Byte stuffing: the round trip -/

/-- The state of `addEscapes` after any input is 0, 1 or 2, and running the loop of
`removeEscapes` over the escaped output reaches the same state with the original
input as its output. -/
theorem removeEscapes_fold_addEscapes_fold (p : Parameter) :
    (p.foldl addEscapesStep (0, [])).1 ≤ 2 ∧
    (p.foldl addEscapesStep (0, [])).2.foldl removeEscapesStep (0, [])
      = ((p.foldl addEscapesStep (0, [])).1, p) := by
  induction p using List.reverseRecOn with
  | nil => exact ⟨by decide, rfl⟩
  | append_singleton xs b ih =>
    obtain ⟨hs, hr⟩ := ih
    rw [List.foldl_append, List.foldl_cons, List.foldl_nil]
    generalize List.foldl addEscapesStep (0, []) xs = st at hs hr
    obtain ⟨s, e⟩ := st
    simp only at hs hr
    have h3 : s = 0 ∨ s = 1 ∨ s = 2 := by omega
    rcases h3 with rfl | rfl | rfl
    · by_cases hb : b = 0xff
      · subst hb
        simp [addEscapesStep, removeEscapesStep, List.foldl_append, hr]
      · simp [addEscapesStep, removeEscapesStep, List.foldl_append, hr, hb]
    · by_cases hb : b = 0xff
      · subst hb
        simp [addEscapesStep, removeEscapesStep, List.foldl_append, hr]
      · simp [addEscapesStep, removeEscapesStep, List.foldl_append, hr, hb]
    · by_cases hb : b = 0xfd
      · subst hb
        simp [addEscapesStep, removeEscapesStep, List.foldl_append, hr]
      · simp [addEscapesStep, removeEscapesStep, List.foldl_append, hr, hb]

/-- C1: unescaping an escaped payload gives the payload back, for every byte
sequence: `removeEscapes (addEscapes p) = p`. -/
theorem removeEscapes_addEscapes (p : Parameter) :
    removeEscapes (addEscapes p) = p := by
  unfold removeEscapes addEscapes
  rw [(removeEscapes_fold_addEscapes_fold p).2]

/-! ## The buffer built by `createPacket` -/

theorem packetHeader_length (motorID : MotorID) (instr : Instruction) (n : Nat) :
    (packetHeader motorID instr n).length = 8 := rfl

theorem calculateChecksum_length (data : Parameter) : (calculateChecksum data).length = 2 := rfl

theorem copyAt_middle (a b c src : Parameter) (n : Nat) (hn : n = a.length)
    (h : b.length = src.length) :
    copyAt (a ++ b ++ c) n src = a ++ src ++ c := by
  subst hn
  unfold copyAt
  rw [List.append_assoc a b c, List.take_left' rfl, ← h, ← List.append_assoc,
    ← List.length_append, List.drop_left' rfl]

/-- The buffer assembled by `createPacket`: header, escaped payload, checksum of both. -/
theorem createPacket_eq (motorID : MotorID) (instr : Instruction) (data : Parameter) :
    createPacket motorID instr data
      = packetHeader motorID instr (addEscapes data).length ++ addEscapes data
        ++ calculateChecksum
            (packetHeader motorID instr (addEscapes data).length ++ addEscapes data) := by
  unfold createPacket
  generalize addEscapes data = esc
  have hrep : List.replicate (esc.length + 10) (0 : Byte)
      = [0, 0, 0, 0, 0, 0, 0, 0] ++ List.replicate esc.length 0 ++ List.replicate 2 0 := by
    rw [show esc.length + 10 = 8 + esc.length + 2 by omega, List.replicate_add,
      List.replicate_add]
    rfl
  have hset : ((((((((List.replicate (esc.length + 10) (0 : Byte)).set 0 0xff).set 1 0xff).set 2
      0xfd).set 3 0x00).set 4 motorID).set 5 (toByte (((esc.length + 3) >>> 0) &&& 0xff))).set 6
      (toByte (((esc.length + 3) >>> 8) &&& 0xff))).set 7 instr.toByte
      = packetHeader motorID instr esc.length ++ List.replicate esc.length 0
        ++ List.replicate 2 0 := by
    rw [hrep]; rfl
  simp only [hset]
  rw [copyAt_middle (packetHeader motorID instr esc.length) (List.replicate esc.length 0)
    (List.replicate 2 0) esc 8 rfl (by simp)]
  have htake : List.take (8 + esc.length)
      (packetHeader motorID instr esc.length ++ esc ++ List.replicate 2 0)
      = packetHeader motorID instr esc.length ++ esc := by
    apply List.take_left'
    simp [packetHeader_length]
  rw [htake]
  have h := copyAt_middle (packetHeader motorID instr esc.length ++ esc) (List.replicate 2 0) []
    (calculateChecksum (packetHeader motorID instr esc.length ++ esc)) (8 + esc.length)
    (by simp [packetHeader_length]) (by simp [calculateChecksum_length])
  simpa using h

/-! ## `validatePacket` -/

theorem validatePacket_eq_true_iff (p : Parameter) :
    validatePacket p = true ↔
      p.length ≤ 131071 ∧ 10 ≤ p.length ∧
      p.getD 0 0 = 0xff ∧ p.getD 1 0 = 0xff ∧ p.getD 2 0 = 0xfd ∧ p.getD 3 0 = 0x00 ∧
      (p.getD 5 0).val + 256 * (p.getD 6 0).val + 7 = p.length ∧
      p.drop (p.length - 2) = calculateChecksum (p.take (p.length - 2)) := by
  have htake : (p.drop (p.length - 2)).take 2 = p.drop (p.length - 2) :=
    List.take_of_length_le (by simp; omega)
  unfold validatePacket
  by_cases h1 : p.length > (2 <<< 16) - 1
  · have h1' : ¬ p.length ≤ 131071 := by
      have : (2 <<< 16) - 1 = 131071 := by decide
      omega
    simp [h1, h1']
  · have h1' : p.length ≤ 131071 := by
      have : (2 <<< 16) - 1 = 131071 := by decide
      omega
    by_cases h2 : p.length < 10
    · have h2' : ¬ 10 ≤ p.length := by omega
      simp [h1, h2, h2']
    · have h2' : 10 ≤ p.length := by omega
      rw [if_neg h1, if_neg h2]
      simp only [stdEqual, calculateChecksum_length, htake, Bool.true_and,
        Bool.and_eq_true, beq_iff_eq, Nat.shiftLeft_eq]
      constructor
      · rintro ⟨⟨⟨⟨⟨a, b⟩, c⟩, d⟩, e⟩, f⟩
        exact ⟨h1', h2', a.symm, b.symm, c.symm, d.symm, by omega, f.symm⟩
      · rintro ⟨_, _, a, b, c, d, e, f⟩
        exact ⟨⟨⟨⟨⟨a.symm, b.symm⟩, c.symm⟩, d.symm⟩, by omega⟩, f.symm⟩

theorem take_four_eq (p : Parameter) (h : 4 ≤ p.length) :
    p.take 4 = [p.getD 0 0, p.getD 1 0, p.getD 2 0, p.getD 3 0] := by
  match p, h with
  | a :: b :: c :: d :: rest, _ => simp

theorem and_255 (x : Nat) : x &&& 0xff = x % 256 :=
  Nat.and_pow_two_sub_one_eq_mod x 8

/-- The two length bytes written by `createPacket` decode to the escaped length plus 3,
reduced modulo `2 ^ 16`. -/
theorem lengthBytes_decode (n : Nat) :
    (toByte (((n + 3) >>> 0) &&& 0xff)).val + 256 * (toByte (((n + 3) >>> 8) &&& 0xff)).val
      = (n + 3) % 65536 := by
  simp only [toByte, and_255, Nat.shiftRight_eq_div_pow]
  omega

theorem createPacket_length (motorID : MotorID) (instr : Instruction) (data : Parameter) :
    (createPacket motorID instr data).length = (addEscapes data).length + 10 := by
  rw [createPacket_eq]
  simp [packetHeader_length, calculateChecksum_length]
  omega

theorem createPacket_lenBytes_eq (motorID : MotorID) (instr : Instruction)
    (data : Parameter) :
    ((createPacket motorID instr data).getD 5 0).val
        + 256 * ((createPacket motorID instr data).getD 6 0).val
      = ((addEscapes data).length + 3) % 65536 := by
  rw [createPacket_eq, ← lengthBytes_decode]
  rfl

theorem createPacket_take (motorID : MotorID) (instr : Instruction) (data : Parameter) :
    (createPacket motorID instr data).take ((createPacket motorID instr data).length - 2)
      = packetHeader motorID instr (addEscapes data).length ++ addEscapes data := by
  rw [createPacket_length, createPacket_eq]
  apply List.take_left'
  simp [packetHeader_length]
  omega

theorem createPacket_drop (motorID : MotorID) (instr : Instruction) (data : Parameter) :
    (createPacket motorID instr data).drop ((createPacket motorID instr data).length - 2)
      = calculateChecksum
          (packetHeader motorID instr (addEscapes data).length ++ addEscapes data) := by
  rw [createPacket_length, createPacket_eq]
  apply List.drop_left'
  simp [packetHeader_length]
  omega

/-- A packet built by `createPacket` passes `validatePacket` as soon as the escaped
length plus 3 fits the 16 bit length field. -/
theorem createPacket_valid_of_lt (motorID : MotorID) (instr : Instruction)
    (data : Parameter) (h : (addEscapes data).length + 3 < 65536) :
    validatePacket (createPacket motorID instr data) = true := by
  rw [validatePacket_eq_true_iff]
  have hlen := createPacket_length motorID instr data
  have hfield := createPacket_lenBytes_eq motorID instr data
  rw [Nat.mod_eq_of_lt h] at hfield
  refine ⟨by omega, by omega, ?_, ?_, ?_, ?_, by omega, ?_⟩
  · rw [createPacket_eq]; rfl
  · rw [createPacket_eq]; rfl
  · rw [createPacket_eq]; rfl
  · rw [createPacket_eq]; rfl
  · rw [createPacket_take, createPacket_drop]

/-! ## Checksum: the table and one step of the loop -/

set_option maxRecDepth 100000 in
theorem crc_table_low_nodup : (crc_table.map (fun t => t % 256)).Nodup := by
  decide

set_option maxRecDepth 100000 in
theorem crc_table_bound : ∀ t ∈ crc_table, t < 65536 := by
  decide

set_option maxRecDepth 100000 in
theorem crc_table_length : crc_table.length = 256 := by
  decide

theorem xor_mod_two_pow (a b n : Nat) : (a ^^^ b) % 2 ^ n = (a % 2 ^ n) ^^^ (b % 2 ^ n) := by
  apply Nat.eq_of_testBit_eq
  intro i
  simp only [Nat.testBit_mod_two_pow, Nat.testBit_xor]
  cases decide (i < n) <;> simp

theorem xor_mod_256 (a b : Nat) : (a ^^^ b) % 256 = (a % 256) ^^^ (b % 256) :=
  xor_mod_two_pow a b 8

theorem xor_mod_65536 (a b : Nat) : (a ^^^ b) % 65536 = (a % 65536) ^^^ (b % 65536) :=
  xor_mod_two_pow a b 16

theorem checksumIndex_lt (c : Nat) (b : Byte) : checksumIndex c b < 256 :=
  Nat.xor_lt_two_pow (n := 8) (Nat.mod_lt _ (by decide)) b.isLt

theorem crc_table_getD_lt (i : Nat) (h : i < 256) : crc_table.getD i 0 < 65536 := by
  apply crc_table_bound
  rw [List.getD_eq_getElem _ _ (by rw [crc_table_length]; exact h)]
  exact List.getElem_mem _

theorem crc_table_low_inj (i j : Nat) (hi : i < 256) (hj : j < 256)
    (h : crc_table.getD i 0 % 256 = crc_table.getD j 0 % 256) : i = j := by
  have hi' : i < (crc_table.map (fun t => t % 256)).length := by
    rw [List.length_map, crc_table_length]; exact hi
  have hj' : j < (crc_table.map (fun t => t % 256)).length := by
    rw [List.length_map, crc_table_length]; exact hj
  have key : (crc_table.map (fun t => t % 256))[i] = (crc_table.map (fun t => t % 256))[j] := by
    rw [List.getElem_map, List.getElem_map]
    rw [List.getD_eq_getElem _ _ (by rw [crc_table_length]; exact hi),
      List.getD_eq_getElem _ _ (by rw [crc_table_length]; exact hj)] at h
    exact h
  exact (List.Nodup.getElem_inj_iff crc_table_low_nodup).1 key

theorem checksumStep_eq (c : Nat) (b : Byte) :
    checksumStep c b = ((c % 256) * 256) ^^^ crc_table.getD (checksumIndex c b) 0 := by
  have hidx : ((c >>> 8) ^^^ b.val) &&& 0xff = checksumIndex c b := by
    rw [and_255, xor_mod_256, Nat.shiftRight_eq_div_pow, Nat.mod_eq_of_lt b.isLt]
    rfl
  unfold checksumStep
  simp only [hidx]
  rw [xor_mod_65536, Nat.mod_eq_of_lt (crc_table_getD_lt _ (checksumIndex_lt c b)),
    Nat.shiftLeft_eq]
  congr 1
  omega

theorem checksumStep_lt (c : Nat) (b : Byte) : checksumStep c b < 65536 := by
  unfold checksumStep
  exact Nat.mod_lt _ (by decide)

theorem checksumStep_mod (c : Nat) (b : Byte) :
    checksumStep c b % 256 = crc_table.getD (checksumIndex c b) 0 % 256 := by
  rw [checksumStep_eq, xor_mod_256]
  have : c % 256 * 256 % 256 = 0 := by omega
  rw [this, Nat.zero_xor]

theorem checksumStep_inj (c₁ c₂ : Nat) (b : Byte) (h₁ : c₁ < 65536) (h₂ : c₂ < 65536)
    (h : checksumStep c₁ b = checksumStep c₂ b) : c₁ = c₂ := by
  have hidx : checksumIndex c₁ b = checksumIndex c₂ b := by
    apply crc_table_low_inj _ _ (checksumIndex_lt c₁ b) (checksumIndex_lt c₂ b)
    rw [← checksumStep_mod, ← checksumStep_mod, h]
  rw [checksumStep_eq, checksumStep_eq, hidx, Nat.xor_left_inj] at h
  unfold checksumIndex at hidx
  rw [Nat.xor_left_inj] at hidx
  omega

theorem checksumStep_ne_of_ne (c : Nat) (b₁ b₂ : Byte) (hb : b₁ ≠ b₂) :
    checksumStep c b₁ ≠ checksumStep c b₂ := by
  intro h
  have hidx : checksumIndex c b₁ = checksumIndex c b₂ := by
    apply crc_table_low_inj _ _ (checksumIndex_lt c b₁) (checksumIndex_lt c b₂)
    rw [← checksumStep_mod, ← checksumStep_mod, h]
  unfold checksumIndex at hidx
  rw [Nat.xor_right_inj] at hidx
  exact hb (Fin.ext hidx)

theorem checksum_fold_lt (l : Parameter) (c : Nat) (h : c < 65536) :
    l.foldl checksumStep c < 65536 := by
  induction l generalizing c with
  | nil => exact h
  | cons b rest ih => exact ih _ (checksumStep_lt c b)

theorem checksum_fold_ne (l : Parameter) (c₁ c₂ : Nat) (h₁ : c₁ < 65536) (h₂ : c₂ < 65536)
    (h : c₁ ≠ c₂) : l.foldl checksumStep c₁ ≠ l.foldl checksumStep c₂ := by
  induction l generalizing c₁ c₂ with
  | nil => exact h
  | cons b rest ih =>
    exact ih _ _ (checksumStep_lt c₁ b) (checksumStep_lt c₂ b)
      (fun heq => h (checksumStep_inj c₁ c₂ b h₁ h₂ heq))

/-- Replacing one byte of the input by a different byte changes the final value of the
variable `checkSum`. -/
theorem checksum_fold_set_ne (l : Parameter) (i : Nat) (hi : i < l.length) (y : Byte)
    (hy : y ≠ l.getD i 0) :
    (l.set i y).foldl checksumStep 0 ≠ l.foldl checksumStep 0 := by
  have hx : l.getD i 0 = l[i] := List.getD_eq_getElem _ _ hi
  have hl : l = l.take i ++ l[i] :: l.drop (i + 1) := by
    simp
  rw [List.set_eq_take_append_cons_drop, if_pos hi]
  conv_rhs => rw [hl]
  rw [List.foldl_append, List.foldl_append, List.foldl_cons, List.foldl_cons]
  apply checksum_fold_ne _ _ _ (checksumStep_lt _ _) (checksumStep_lt _ _)
  apply checksumStep_ne_of_ne
  rw [← hx]
  exact hy

theorem checksum_bytes_inj (c₁ c₂ : Nat) (h₁ : c₁ < 65536) (h₂ : c₂ < 65536)
    (h : [toByte (c₁ &&& 0xff), toByte ((c₁ >>> 8) &&& 0xff)]
      = [toByte (c₂ &&& 0xff), toByte ((c₂ >>> 8) &&& 0xff)]) : c₁ = c₂ := by
  simp only [List.cons.injEq, and_true, toByte, Fin.mk.injEq, and_255,
    Nat.shiftRight_eq_div_pow] at h
  omega

theorem flipped_byte_ne (x : Byte) (k : Nat) (hk : k < 8) :
    toByte (x.val ^^^ (1 <<< k)) ≠ x := by
  intro h
  have hpow : 1 <<< k < 2 ^ 8 := by
    rw [Nat.one_shiftLeft]
    exact Nat.pow_lt_pow_right (by decide) hk
  have hlt : x.val ^^^ (1 <<< k) < 256 := Nat.xor_lt_two_pow (n := 8) x.isLt hpow
  have hv : (x.val ^^^ (1 <<< k)) % 256 = x.val := congrArg Fin.val h
  rw [Nat.mod_eq_of_lt hlt] at hv
  have h0 : x.val ^^^ (1 <<< k) = x.val ^^^ 0 := by rw [hv, Nat.xor_zero]
  rw [Nat.xor_right_inj, Nat.one_shiftLeft] at h0
  exact absurd h0 (by positivity)

/-! ## The claims on stuffing, checksum and packets -/

theorem addEscapes_fold_replicate_zero (n : Nat) (acc : Parameter) :
    (List.replicate n (0 : Byte)).foldl addEscapesStep (0, acc)
      = (0, acc ++ List.replicate n 0) := by
  induction n generalizing acc with
  | zero => simp
  | succ k ih =>
    rw [List.replicate_succ, List.foldl_cons]
    have hstep : addEscapesStep (0, acc) (0 : Byte) = (0, acc ++ [0]) := by
      simp [addEscapesStep]
    rw [hstep, ih]
    simp

theorem addEscapes_replicate_zero (n : Nat) :
    addEscapes (List.replicate n (0 : Byte)) = List.replicate n 0 := by
  unfold addEscapes
  rw [addEscapes_fold_replicate_zero]
  simp

/-- C2: on the input `FF FF FF FD`, which contains `FF FF FD` at offset 1,
`addEscapes` inserts nothing and returns the four input bytes unchanged. -/
theorem addEscapes_run_of_ff_not_stuffed :
    addEscapes [0xff, 0xff, 0xff, 0xfd] = [0xff, 0xff, 0xff, 0xfd] := by
  decide

/-- C3: on the input `FF FF FF FD 00` the output of `addEscapes` is the input itself,
and so contains the frame header `FF FF FD 00` at offset 1. -/
theorem addEscapes_output_contains_header :
    addEscapes [0xff, 0xff, 0xff, 0xfd, 0x00] = [0xff, 0xff, 0xff, 0xfd, 0x00] ∧
    ∃ pre post : Parameter,
      addEscapes [0xff, 0xff, 0xff, 0xfd, 0x00] = pre ++ [0xff, 0xff, 0xfd, 0x00] ++ post :=
  ⟨by decide, [0xff], [], by decide⟩

/-- C4: for every byte sequence `b` and every bit position `n` inside `b` (so `b` is not
empty), `calculateChecksum` of `b` with that single bit flipped is a two byte value
different from `calculateChecksum b`. -/
theorem calculateChecksum_flipBit_ne (b : Parameter) (n : Nat) (h : n < 8 * b.length) :
    (calculateChecksum (flipBit b n)).length = 2 ∧
    calculateChecksum (flipBit b n) ≠ calculateChecksum b := by
  refine ⟨rfl, ?_⟩
  intro heq
  have hi : n / 8 < b.length := by omega
  have hne := checksum_fold_set_ne b (n / 8) hi
    (toByte ((b.getD (n / 8) 0).val ^^^ (1 <<< (n % 8))))
    (flipped_byte_ne _ _ (Nat.mod_lt n (by decide)))
  apply hne
  exact checksum_bytes_inj _ _ (checksum_fold_lt _ 0 (by decide))
    (checksum_fold_lt _ 0 (by decide)) heq

/-- Flipping bit 11 of the two bytes `12 34` changes their checksum. -/
theorem calculateChecksum_flipBit_ne_witness :
    11 < 8 * [(0x12 : Byte), 0x34].length ∧
    ((calculateChecksum (flipBit [0x12, 0x34] 11)).length = 2 ∧
    calculateChecksum (flipBit [0x12, 0x34] 11) ≠ calculateChecksum [0x12, 0x34]) :=
  ⟨by decide, calculateChecksum_flipBit_ne [0x12, 0x34] 11 (by decide)⟩

/-- C5: `validatePacket` returns false for every packet that has fewer than 10 bytes, or
whose first four bytes are not `FF FF FD 00`, or whose little-endian length field at
offsets 5-6 differs from the packet size minus 7, or whose last two bytes differ from
`calculateChecksum` of all bytes before them. -/
theorem validatePacket_rejects (p : Parameter)
    (h : p.length < 10 ∨ p.take 4 ≠ [0xff, 0xff, 0xfd, 0x00] ∨
      (p.getD 5 0).val + 256 * (p.getD 6 0).val ≠ p.length - 7 ∨
      p.drop (p.length - 2) ≠ calculateChecksum (p.take (p.length - 2))) :
    validatePacket p = false := by
  cases hv : validatePacket p with
  | false => rfl
  | true =>
    exfalso
    obtain ⟨_, h10, a, b, c, d, e, f⟩ := (validatePacket_eq_true_iff p).1 hv
    rcases h with h | h | h | h
    · omega
    · apply h
      rw [take_four_eq p (by omega), a, b, c, d]
    · omega
    · exact h f

/-- The ping packet `FF FF FD 00 01 03 00 01 19 4E` with its last checksum byte changed to
`4F` is rejected. -/
theorem validatePacket_rejects_witness :
    ([0xff, 0xff, 0xfd, 0x00, 0x01, 0x03, 0x00, 0x01, 0x19, 0x4f] : Parameter).drop 8
      ≠ calculateChecksum
        (([0xff, 0xff, 0xfd, 0x00, 0x01, 0x03, 0x00, 0x01, 0x19, 0x4f] : Parameter).take 8) ∧
    validatePacket [0xff, 0xff, 0xfd, 0x00, 0x01, 0x03, 0x00, 0x01, 0x19, 0x4f] = false :=
  ⟨by decide,
    validatePacket_rejects [0xff, 0xff, 0xfd, 0x00, 0x01, 0x03, 0x00, 0x01, 0x19, 0x4f]
      (Or.inr (Or.inr (Or.inr (by decide))))⟩

/-- C6: the packet that `createPacket` builds for a payload of 65530 zero bytes has
65540 bytes, more than 65535, and `validatePacket` accepts it. -/
theorem validatePacket_accepts_oversize :
    (createPacket 1 Instruction.PING (List.replicate 65530 0)).length = 65540 ∧
    validatePacket (createPacket 1 Instruction.PING (List.replicate 65530 0)) = true := by
  constructor
  · rw [createPacket_length, addEscapes_replicate_zero, List.length_replicate]
  · apply createPacket_valid_of_lt
    rw [addEscapes_replicate_zero, List.length_replicate]
    decide

/-- C7: for every motor id, instruction and payload whose packet fits the size limit
(`(addEscapes payload).length + 10 ≤ 65535`), `validatePacket` accepts the packet built
by `createPacket`. -/
theorem validatePacket_createPacket (motorID : MotorID) (instr : Instruction)
    (payload : Parameter) (h : (addEscapes payload).length + 10 ≤ 65535) :
    validatePacket (createPacket motorID instr payload) = true :=
  createPacket_valid_of_lt motorID instr payload (by omega)

/-- The packet built for a read instruction whose payload contains `FF FF FD` is accepted. -/
theorem validatePacket_createPacket_witness :
    (addEscapes [0x84, 0xff, 0xff, 0xfd]).length + 10 ≤ 65535 ∧
    validatePacket (createPacket 1 Instruction.READ [0x84, 0xff, 0xff, 0xfd]) = true :=
  ⟨by decide, validatePacket_createPacket 1 Instruction.READ [0x84, 0xff, 0xff, 0xfd]
    (by decide)⟩

/-- C8: for every motor id, instruction and payload, `createPacket` returns exactly
`(addEscapes payload).length + 10` bytes in which bytes 0-3 are `FF FF FD 00`, byte 4 is
the motor id, byte 7 is the opcode of the instruction (with the opcode values of the
table), bytes 8 up to the last two are `addEscapes payload`, and the last two bytes
are `calculateChecksum` of all bytes before them. -/
theorem createPacket_layout (motorID : MotorID) (instr : Instruction) (payload : Parameter) :
    (createPacket motorID instr payload).length = (addEscapes payload).length + 10 ∧
    (createPacket motorID instr payload).take 4 = [0xff, 0xff, 0xfd, 0x00] ∧
    (createPacket motorID instr payload).getD 4 0 = motorID ∧
    (createPacket motorID instr payload).getD 7 0 = instr.toByte ∧
    [Instruction.PING, Instruction.READ, Instruction.WRITE, Instruction.REG_WRITE,
      Instruction.ACTION, Instruction.RESET, Instruction.REBOOT, Instruction.STATUS,
      Instruction.SYNC_READ, Instruction.SYNC_WRITE, Instruction.BULK_READ,
      Instruction.BULK_WRITE].map Instruction.toByte
      = [0x01, 0x02, 0x03, 0x04, 0x05, 0x06, 0x08, 0x55, 0x82, 0x83, 0x92, 0x93] ∧
    ((createPacket motorID instr payload).take
        ((createPacket motorID instr payload).length - 2)).drop 8 = addEscapes payload ∧
    (createPacket motorID instr payload).drop ((createPacket motorID instr payload).length - 2)
      = calculateChecksum ((createPacket motorID instr payload).take
          ((createPacket motorID instr payload).length - 2)) := by
  refine ⟨createPacket_length motorID instr payload, ?_, ?_, ?_, rfl, ?_, ?_⟩
  · rw [createPacket_eq]; rfl
  · rw [createPacket_eq]; rfl
  · rw [createPacket_eq]; rfl
  · rw [createPacket_take]
    exact List.drop_left' (packetHeader_length motorID instr _)
  · rw [createPacket_take, createPacket_drop]

/-- C9, as the code has it: the 16 bit little-endian length field at offsets 5-6 of the
result of `createPacket` is the escaped payload length plus 3 reduced modulo `2 ^ 16`,
where the escaped payload length plus 3 is the size of the packet minus 7; the field
equals the escaped payload length plus 3 exactly when that number is below 65536. -/
theorem createPacket_lengthField_mod (motorID : MotorID) (instr : Instruction)
    (payload : Parameter) :
    ((createPacket motorID instr payload).getD 5 0).val
        + 256 * ((createPacket motorID instr payload).getD 6 0).val
      = ((addEscapes payload).length + 3) % 65536 ∧
    (createPacket motorID instr payload).length - 7 = (addEscapes payload).length + 3 ∧
    (((createPacket motorID instr payload).getD 5 0).val
        + 256 * ((createPacket motorID instr payload).getD 6 0).val
      = (addEscapes payload).length + 3 ↔ (addEscapes payload).length + 3 < 65536) := by
  have hfield := createPacket_lenBytes_eq motorID instr payload
  have hlen := createPacket_length motorID instr payload
  refine ⟨hfield, by omega, ?_⟩
  rw [hfield]
  omega

/-- C9 fails as stated: for a payload of 65533 zero bytes the length field of the packet
is not the escaped payload length plus 3 (which is 65536 and does not fit 16 bits). -/
theorem createPacket_lengthField_overflow :
    ((createPacket 1 Instruction.WRITE (List.replicate 65533 0)).getD 5 0).val
        + 256 * ((createPacket 1 Instruction.WRITE (List.replicate 65533 0)).getD 6 0).val
      ≠ (addEscapes (List.replicate 65533 0)).length + 3 := by
  rw [createPacket_lenBytes_eq, addEscapes_replicate_zero, List.length_replicate]
  decide

/-- C10: for every byte sequence that `validatePacket` rejects, `extractPayload` returns
the triple (`MotorIDInvalid` = 0xFF, error code 0, empty payload). -/
theorem extractPayload_of_rejected (raw_packet : Parameter)
    (h : validatePacket raw_packet = false) :
    extractPayload raw_packet = some (MotorIDInvalid, 0, []) ∧ MotorIDInvalid = 0xFF := by
  constructor
  · unfold extractPayload
    simp [h]
  · rfl

/-- An eleven byte status packet with a zeroed checksum is rejected and decodes to the
invalid triple. -/
theorem extractPayload_of_rejected_witness :
    validatePacket [0xff, 0xff, 0xfd, 0x00, 0x01, 0x04, 0x00, 0x55, 0x00, 0x00, 0x00] = false ∧
    (extractPayload [0xff, 0xff, 0xfd, 0x00, 0x01, 0x04, 0x00, 0x55, 0x00, 0x00, 0x00]
        = some (MotorIDInvalid, 0, []) ∧ MotorIDInvalid = 0xFF) :=
  ⟨by decide, extractPayload_of_rejected
    [0xff, 0xff, 0xfd, 0x00, 0x01, 0x04, 0x00, 0x55, 0x00, 0x00, 0x00] (by decide)⟩

/-! ## Payload extraction from accepted packets -/

/-- The slice taken by `extractPayload` from an accepted packet of at least 11 bytes ends
where the checksum starts. -/
theorem extractPayload_eq_of_valid (p : Parameter) (h11 : 11 ≤ p.length)
    (hv : validatePacket p = true) :
    extractPayload p
      = some (p.getD 4 0, p.getD 8 0, removeEscapes ((p.take (p.length - 2)).drop 9)) := by
  obtain ⟨_, _, _, _, _, _, hlen, _⟩ := (validatePacket_eq_true_iff p).1 hv
  have hlen' : (p.getD 5 0).val + ((p.getD 6 0).val <<< 8) = p.length - 7 := by
    rw [Nat.shiftLeft_eq]; omega
  unfold extractPayload
  simp only [hv, not_true_eq_false, if_false, hlen']
  have h1 : 9 + (p.length - 7) - 4 = p.length - 2 := by omega
  rw [h1, if_pos (by omega)]

/-- C11: for every packet of at least 11 bytes that `validatePacket` accepts,
`extractPayload` returns motor id = byte 4, error code = byte 8, and payload =
`removeEscapes` of the bytes from offset 9 up to but excluding the two trailing checksum
bytes. -/
theorem extractPayload_of_accepted (p : Parameter) (h11 : 11 ≤ p.length)
    (hv : validatePacket p = true) :
    extractPayload p
      = some (p.getD 4 0, p.getD 8 0, removeEscapes ((p.take (p.length - 2)).drop 9)) :=
  extractPayload_eq_of_valid p h11 hv

/-- The status packet of motor 1 with error byte 0 and the three data bytes `FF FF FD`
decodes to its fields. -/
theorem extractPayload_of_accepted_witness :
    (11 ≤ (createPacket 1 Instruction.STATUS [0x00, 0xff, 0xff, 0xfd]).length ∧
      validatePacket (createPacket 1 Instruction.STATUS [0x00, 0xff, 0xff, 0xfd]) = true) ∧
    extractPayload (createPacket 1 Instruction.STATUS [0x00, 0xff, 0xff, 0xfd])
      = some ((createPacket 1 Instruction.STATUS [0x00, 0xff, 0xff, 0xfd]).getD 4 0,
          (createPacket 1 Instruction.STATUS [0x00, 0xff, 0xff, 0xfd]).getD 8 0,
          removeEscapes (((createPacket 1 Instruction.STATUS [0x00, 0xff, 0xff, 0xfd]).take
            ((createPacket 1 Instruction.STATUS [0x00, 0xff, 0xff, 0xfd]).length - 2)).drop 9)) :=
  ⟨⟨by decide, by decide⟩,
    extractPayload_of_accepted (createPacket 1 Instruction.STATUS [0x00, 0xff, 0xff, 0xfd])
      (by decide) (by decide)⟩

/-! ## Baud rates, field encodings and bulk read blocks -/

/-- C18: `baudIndexToBaudrate` returns `2000000 / (index + 1)` (rounded down) for every
index 0..249, so 2000000 for 0 and 1000000 for 1, returns 2250000, 2500000 and 3000000
for 250, 251 and 252, and raises its error for exactly the remaining indices 253, 254
and 255. -/
theorem baudIndexToBaudrate_spec :
    (∀ i : Fin 256, i.val < 250 → baudIndexToBaudrate i = .ok (2000000 / (i.val + 1))) ∧
    baudIndexToBaudrate 0 = .ok 2000000 ∧
    baudIndexToBaudrate 1 = .ok 1000000 ∧
    baudIndexToBaudrate 250 = .ok 2250000 ∧
    baudIndexToBaudrate 251 = .ok 2500000 ∧
    baudIndexToBaudrate 252 = .ok 3000000 ∧
    (∀ i : Fin 256, (∃ msg, baudIndexToBaudrate i = .error msg) ↔
      (i = 253 ∨ i = 254 ∨ i = 255)) := by
  refine ⟨?_, rfl, rfl, rfl, rfl, rfl, ?_⟩
  · intro i hi
    simp [baudIndexToBaudrate, hi]
  · intro i
    by_cases hi : i.val < 250
    · have h1 : baudIndexToBaudrate i = .ok (2000000 / (i.val + 1)) := by
        simp [baudIndexToBaudrate, hi]
      constructor
      · rintro ⟨msg, hm⟩
        rw [h1] at hm
        cases hm
      · rintro (h | h | h) <;> (subst h; exact absurd hi (by decide))
    · have h6 : i = 250 ∨ i = 251 ∨ i = 252 ∨ i = 253 ∨ i = 254 ∨ i = 255 := by
        have := i.isLt
        simp only [Fin.ext_iff]
        omega
      rcases h6 with h | h | h | h | h | h <;> subst h
      · exact ⟨fun ⟨msg, hm⟩ => (by cases hm), fun h => absurd h (by decide)⟩
      · exact ⟨fun ⟨msg, hm⟩ => (by cases hm), fun h => absurd h (by decide)⟩
      · exact ⟨fun ⟨msg, hm⟩ => (by cases hm), fun h => absurd h (by decide)⟩
      · exact ⟨fun _ => (by decide), fun _ => ⟨_, rfl⟩⟩
      · exact ⟨fun _ => (by decide), fun _ => ⟨_, rfl⟩⟩
      · exact ⟨fun _ => (by decide), fun _ => ⟨_, rfl⟩⟩

theorem ldiff_255 (m : Nat) : Nat.ldiff 255 m = 255 - m % 256 := by
  apply Nat.eq_of_testBit_eq
  intro i
  have h : 255 - m % 256 = 2 ^ 8 - (m % 2 ^ 8 + 1) := by norm_num; omega
  rw [h, Nat.testBit_two_pow_sub_succ (Nat.mod_lt _ (by decide)), Nat.testBit_ldiff,
    Nat.testBit_mod_two_pow, show (255 : Nat) = 2 ^ 8 - 1 from rfl, Nat.testBit_two_pow_sub_one]
  cases decide (i < 8) <;> simp

/-- On a two's complement `int` the mask `& 0xff` is the remainder modulo 256. -/
theorem int_land_255 (a : Int) : Int.land a 0xff = a % 256 := by
  cases a with
  | ofNat m =>
    show ((m &&& 0xff : Nat) : Int) = (m : Int) % 256
    rw [and_255]
    omega
  | negSucc m =>
    show ((Nat.ldiff 255 m : Nat) : Int) = Int.negSucc m % 256
    rw [ldiff_255, Int.negSucc_eq]
    omega

theorem convertLength_eq (n : Nat) :
    convertLength n = [toByte (n % 256), toByte (n / 256 % 256)] := by
  simp only [convertLength, and_255, Nat.shiftRight_eq_div_pow]

theorem convertAddress_eq (a : Int) :
    convertAddress a = [toByte (a % 256).toNat, toByte (a / 256 % 256).toNat] := by
  have h8 : a >>> (8 : Nat) = a / 256 := by
    rw [Int.shiftRight_eq_div_pow]
    rfl
  simp only [convertAddress, int_land_255, h8]

/-- C19: for every `n`, `convertLength n` and `convertAddress n` are exactly the two bytes
`[n mod 256, (n div 256) mod 256]` (for a negative `int` address with the remainder and
quotient rounded down), and for every `0 ≤ n < 65536` decoding either result as a
little-endian 16 bit integer gives `n` back. -/
theorem convertLength_convertAddress_spec :
    (∀ n : Nat, convertLength n = [toByte (n % 256), toByte (n / 256 % 256)]) ∧
    (∀ a : Int, convertAddress a = [toByte (a % 256).toNat, toByte (a / 256 % 256).toNat]) ∧
    (∀ n : Nat, convertAddress (n : Int) = [toByte (n % 256), toByte (n / 256 % 256)]) ∧
    (∀ n : Fin 65536, decodeLE16 (convertLength n.val) = n.val ∧
      decodeLE16 (convertAddress (n.val : Int)) = n.val) := by
  have haddr : ∀ n : Nat,
      convertAddress (n : Int) = [toByte (n % 256), toByte (n / 256 % 256)] := by
    intro n
    rw [convertAddress_eq]
    have h1 : ((n : Int) % 256).toNat = n % 256 := by omega
    have h2 : ((n : Int) / 256 % 256).toNat = n / 256 % 256 := by omega
    rw [h1, h2]
  refine ⟨convertLength_eq, convertAddress_eq, haddr, ?_⟩
  intro n
  have hn := n.isLt
  rw [haddr, convertLength_eq]
  simp only [decodeLE16, List.getD_cons_zero, List.getD_cons_succ, toByte]
  omega

theorem bulkReadStep_eq (txBuf : List Byte) (motor : MotorID × Int × Nat) :
    bulkReadStep txBuf motor
      = txBuf ++ ([motor.1] ++ convertAddress motor.2.1 ++ convertLength motor.2.2) := by
  simp [bulkReadStep, convertAddress, convertLength]

theorem bulkRead_fold_eq (motors : List (MotorID × Int × Nat)) (txBuf : List Byte) :
    motors.foldl bulkReadStep txBuf
      = txBuf ++ (motors.map (fun m => [m.1] ++ convertAddress m.2.1
          ++ convertLength m.2.2)).flatten := by
  induction motors generalizing txBuf with
  | nil => simp
  | cons m rest ih =>
    rw [List.foldl_cons, ih, bulkReadStep_eq]
    simp

/-- C20: for every list of `(motorID, address, length)` entries, `buildBulkReadPackage`
returns the concatenation, in list order, of the five byte blocks
`[motorID] ++ convertAddress address ++ convertLength length`; the result has exactly
five bytes per entry and is empty for the empty list. -/
theorem buildBulkReadPackage_spec (motors : List (MotorID × Int × Nat)) :
    buildBulkReadPackage motors
      = (motors.map (fun m => [m.1] ++ convertAddress m.2.1
          ++ convertLength m.2.2)).flatten ∧
    (buildBulkReadPackage motors).length = 5 * motors.length ∧
    buildBulkReadPackage [] = [] := by
  have h : buildBulkReadPackage motors
      = (motors.map (fun m => [m.1] ++ convertAddress m.2.1
          ++ convertLength m.2.2)).flatten := by
    unfold buildBulkReadPackage
    rw [bulkRead_fold_eq]
    simp
  refine ⟨h, ?_, rfl⟩
  rw [h]
  clear h
  induction motors with
  | nil => rfl
  | cons m rest ih =>
    rw [List.map_cons, List.flatten_cons, List.length_append, ih]
    simp [convertAddress, convertLength]
    omega

/-! ## The read loop: shape of the results -/

theorem deadlineReached_zero (env : Env) (startTime : Int) (w : World) :
    deadlineReached env 0 startTime w = (false, w) := by
  simp [deadlineReached]

/-- A result of the loop of `readPacket` is the failure result or carries the expected
motor id and a payload of the expected length. -/
theorem readPacketLoop_shape (env : Env) (timeout : Timeout) (expectedMotorID : MotorID)
    (numParameters : Nat) (startTime : Int) (fuel : Nat) (w w' : World)
    (r : Bool × MotorID × ErrorCode × Parameter)
    (h : readPacketLoop env timeout expectedMotorID numParameters startTime fuel w
      = some (r, w')) :
    r = timedOutResult ∨
      (r.1 = false ∧ r.2.1 = expectedMotorID ∧ r.2.2.2.length = numParameters) := by
  induction fuel generalizing w with
  | zero => simp [readPacketLoop] at h
  | succ fuel ih =>
    unfold readPacketLoop at h
    split at h
    · exact absurd h (by simp)
    · split at h
      · simp only [Option.some.injEq, Prod.mk.injEq] at h
        exact Or.inl h.1.symm
      · dsimp only at h
        split at h
        · exact absurd h (by simp)
        · split at h
          · simp only [Option.some.injEq, Prod.mk.injEq] at h
            exact Or.inl h.1.symm
          · split at h
            · exact absurd h (by simp)
            · split at h
              · exact ih _ h
              · rename_i hcond
                simp only [Option.some.injEq, Prod.mk.injEq] at h
                rw [← h.1]
                simp only [not_or, not_not] at hcond
                exact Or.inr ⟨rfl, hcond.2, hcond.1⟩

/-! ## The read loop without a deadline -/

/-- With timeout 0 the loop of `synchronizeOnHeader` returns only through its two
`return preambleBuffer` statements, with at least the nine header bytes. -/
theorem synchronizeLoop_zero_length (env : Env) (expectedMotorID : MotorID)
    (numParameters : Nat) (startTime : Int) (fuel : Nat) (buf b : Parameter) (w w' : World)
    (h : synchronizeLoop env 0 expectedMotorID numParameters startTime fuel buf w
      = some (b, w')) :
    9 ≤ b.length := by
  induction fuel generalizing buf w with
  | zero => simp [synchronizeLoop] at h
  | succ fuel ih =>
    unfold synchronizeLoop at h
    rw [deadlineReached_zero] at h
    dsimp only at h
    rw [if_neg (by simp)] at h
    split at h
    · exact absurd h (by simp)
    · split at h
      · rename_i h9
        split at h
        · split at h
          · split at h
            · simp only [Option.some.injEq, Prod.mk.injEq] at h
              rw [← h.1]; exact h9
            · exact ih _ _ h
          · simp only [Option.some.injEq, Prod.mk.injEq] at h
            rw [← h.1]; exact h9
        · exact ih _ _ h
      · exact ih _ _ h

/-- With timeout 0 the completion loop of `readPacket` never sets `timeoutFlag`. -/
theorem completeLoop_zero_flag (env : Env) (startTime : Int) (incomingLength fuel : Nat)
    (rxBuf rx : Parameter) (flag : Bool) (w w' : World)
    (h : completeLoop env 0 startTime incomingLength fuel rxBuf false w
      = some (rx, flag, w')) :
    flag = false := by
  induction fuel generalizing rxBuf w with
  | zero => simp [completeLoop] at h
  | succ fuel ih =>
    unfold completeLoop at h
    split at h
    · split at h
      · exact absurd h (by simp)
      · rw [deadlineReached_zero] at h
        exact ih _ _ h
    · simp only [Option.some.injEq, Prod.mk.injEq] at h
      exact h.2.1.symm

theorem readPacketLoop_zero (env : Env) (expectedMotorID : MotorID)
    (numParameters : Nat) (startTime : Int) (fuel : Nat) (w w' : World)
    (r : Bool × MotorID × ErrorCode × Parameter)
    (h : readPacketLoop env 0 expectedMotorID numParameters startTime fuel w
      = some (r, w')) :
    r.1 = false := by
  induction fuel generalizing w with
  | zero => simp [readPacketLoop] at h
  | succ fuel ih =>
    unfold readPacketLoop at h
    split at h
    · exact absurd h (by simp)
    · rename_i hsync
      have h9 := synchronizeLoop_zero_length _ _ _ _ _ _ _ _ _ hsync
      rw [if_neg (by omega)] at h
      dsimp only at h
      split at h
      · exact absurd h (by simp)
      · rename_i hcomp
        have hflag := completeLoop_zero_flag _ _ _ _ _ _ _ _ _ hcomp
        subst hflag
        rw [if_neg (by simp)] at h
        split at h
        · exact absurd h (by simp)
        · split at h
          · exact ih _ h
          · simp only [Option.some.injEq, Prod.mk.injEq] at h
            rw [← h.1]

/-- C16: with timeout 0, `readPacket` never returns a result with `timedOut = true`,
whatever the transport delivers and whatever the clock reads; a result that it returns
carries the expected motor id and a payload of the expected length. -/
theorem readPacket_zero_never_timedOut (env : Env) (expectedMotorID : MotorID)
    (numParameters : Nat) (w w' : World) (r : Bool × MotorID × ErrorCode × Parameter)
    (h : readPacket env 0 expectedMotorID numParameters w = some (r, w')) :
    r.1 = false ∧ r.2.1 = expectedMotorID ∧ r.2.2.2.length = numParameters := by
  unfold readPacket at h
  have h1 := readPacketLoop_zero _ _ _ _ _ _ _ _ h
  rcases readPacketLoop_shape _ _ _ _ _ _ _ _ _ h with h2 | h2
  · rw [h2] at h1
    exact absurd h1 (by decide)
  · exact h2

/-- With timeout 0 the status packet of motor 1 without data bytes is returned. -/
theorem readPacket_zero_never_timedOut_witness :
    readPacket Env.steady 0 1 0 (World.init (createPacket 1 Instruction.STATUS [0x00]))
      = some ((false, 1, 0, []),
          { stream := [], reads := 1, ticks := 2,
            log := [Event.now 0, Event.now 0, Event.read 11 11] }) ∧
    ((false, (1 : MotorID), (0 : ErrorCode), ([] : Parameter)).1 = false ∧
      (false, (1 : MotorID), (0 : ErrorCode), ([] : Parameter)).2.1 = 1 ∧
      (false, (1 : MotorID), (0 : ErrorCode), ([] : Parameter)).2.2.2.length = 0) :=
  ⟨by decide,
    readPacket_zero_never_timedOut Env.steady 1 0
      (World.init (createPacket 1 Instruction.STATUS [0x00]))
      { stream := [], reads := 1, ticks := 2,
        log := [Event.now 0, Event.now 0, Event.read 11 11] }
      (false, 1, 0, []) (by decide)⟩

/-! ## The read loop: packets that are not the expected one -/

/-- C13: the bus delivers the status packet of motor 1 without data bytes and then the
status packet of motor 1 with nine data bytes; `readPacket` with timeout 0, expected
motor 1 and nine expected parameters does not return the second packet: it reads until
the bus is empty and then waits in a read that never returns. -/
theorem readPacket_stuck_on_short_header :
    validatePacket (createPacket 1 Instruction.STATUS [0x00]) = true ∧
    extractPayload (createPacket 1 Instruction.STATUS [0x00, 1, 2, 3, 4, 5, 6, 7, 8, 9])
      = some (1, 0, [1, 2, 3, 4, 5, 6, 7, 8, 9]) ∧
    readPacket Env.steady 0 1 9
      (World.init (createPacket 1 Instruction.STATUS [0x00] ++
        createPacket 1 Instruction.STATUS [0x00, 1, 2, 3, 4, 5, 6, 7, 8, 9])) = none := by
  decide

/-- C14: the bus delivers eleven bytes with the header of a status packet of motor 0xFF
and a wrong checksum; `validatePacket` rejects them, and `readPacket` with expected motor
0xFF and no expected parameters returns them as a successful result. -/
theorem readPacket_returns_rejected_packet :
    validatePacket [0xff, 0xff, 0xfd, 0x00, 0xff, 0x04, 0x00, 0x55, 0x00, 0x00, 0x00] = false ∧
    readPacket Env.steady 0 0xff 0
      (World.init [0xff, 0xff, 0xfd, 0x00, 0xff, 0x04, 0x00, 0x55, 0x00, 0x00, 0x00])
      = some ((false, 0xff, 0, []),
          { stream := [], reads := 1, ticks := 2,
            log := [Event.now 0, Event.now 0, Event.read 11 11] }) := by
  decide

/-- C15 fails as stated: for the expected motor id 0xFF and the accepted status packet of
motor 0xFF with one data byte, `readPacket` returns a successful result whose motor id
is `MotorIDInvalid`. -/
theorem readPacket_returns_invalid_id :
    validatePacket (createPacket 0xff Instruction.STATUS [0x00, 0x07]) = true ∧
    readPacket Env.steady 0 0xff 1
      (World.init (createPacket 0xff Instruction.STATUS [0x00, 0x07]))
      = some ((false, MotorIDInvalid, 0, [0x07]),
          { stream := [], reads := 2, ticks := 2,
            log := [Event.now 0, Event.now 0, Event.read 11 11, Event.read 1 1] }) := by
  decide

/-- C15, as the code has it: for every expected motor id other than `MotorIDInvalid`,
every timeout and every transport stream, `readPacket` never returns a successful result
(`timedOut = false`) whose motor id is `MotorIDInvalid`. -/
theorem readPacket_success_id_valid (env : Env) (timeout : Timeout)
    (expectedMotorID : MotorID) (numParameters : Nat) (w w' : World)
    (motorID : MotorID) (errorCode : ErrorCode) (payload : Parameter)
    (hexp : expectedMotorID ≠ MotorIDInvalid)
    (h : readPacket env timeout expectedMotorID numParameters w
      = some ((false, motorID, errorCode, payload), w')) :
    motorID ≠ MotorIDInvalid := by
  unfold readPacket at h
  rcases readPacketLoop_shape _ _ _ _ _ _ _ _ _ h with h2 | h2
  · have h3 : false = true := congrArg Prod.fst h2
    exact absurd h3 (by decide)
  · have h3 : motorID = expectedMotorID := h2.2.1
    rw [h3]
    exact hexp

/-- For the expected motor 1 the returned motor id is 1, which is not 0xFF. -/
theorem readPacket_success_id_valid_witness :
    ((1 : MotorID) ≠ MotorIDInvalid ∧
      readPacket Env.steady 0 1 0 (World.init (createPacket 1 Instruction.STATUS [0x00]))
        = some ((false, 1, 0, []),
            { stream := [], reads := 1, ticks := 2,
              log := [Event.now 0, Event.now 0, Event.read 11 11] })) ∧
    (1 : MotorID) ≠ MotorIDInvalid :=
  ⟨⟨by decide, by decide⟩,
    readPacket_success_id_valid Env.steady 0 1 0
      (World.init (createPacket 1 Instruction.STATUS [0x00]))
      { stream := [], reads := 1, ticks := 2,
        log := [Event.now 0, Event.now 0, Event.read 11 11] }
      1 0 [] (by decide) (by decide)⟩

/-! ## The read loop: where the deadline is measured from -/

theorem clockNow_log (env : Env) (w : World) :
    (clockNow env w).2.log = w.log ++ [Event.now (clockNow env w).1] := rfl

theorem fileRead_log (env : Env) (w w' : World) (n : Nat) (buffer : Parameter)
    (h : fileRead env w n = some (buffer, w')) :
    w'.log = w.log ++ [Event.read n buffer.length] := by
  unfold fileRead at h
  split at h
  · exact absurd h (by simp)
  · simp only [Option.some.injEq, Prod.mk.injEq] at h
    rw [← h.2, ← h.1]

/-- The calls made by the loop of `synchronizeOnHeader`: no read follows a loop test that
has read the clock at `timeout` or more after `startTime`. -/
theorem synchronizeLoop_log (env : Env) (timeout : Timeout) (expectedMotorID : MotorID)
    (numParameters : Nat) (startTime : Int) (fuel : Nat) (buf b : Parameter) (w w' : World)
    (h : synchronizeLoop env timeout expectedMotorID numParameters startTime fuel buf w
      = some (b, w')) :
    ∃ ev, w'.log = w.log ++ ev ∧ readsBeforeDeadline startTime timeout false ev = true := by
  induction fuel generalizing buf w with
  | zero => simp [synchronizeLoop] at h
  | succ fuel ih =>
    unfold synchronizeLoop at h
    -- the deadline test and the calls that it makes
    have htest : ∃ ev0, (deadlineReached env timeout startTime w).2.log = w.log ++ ev0 ∧
        ∀ rest, readsBeforeDeadline startTime timeout false (ev0 ++ rest)
          = readsBeforeDeadline startTime timeout
              (deadlineReached env timeout startTime w).1 rest := by
      unfold deadlineReached
      by_cases ht : timeout = 0
      · exact ⟨[], by simp [ht], fun rest => by simp [ht]⟩
      · refine ⟨[Event.now (clockNow env w).1], by simp [ht, clockNow_log], fun rest => ?_⟩
        simp [ht, readsBeforeDeadline]
    obtain ⟨ev0, hlog0, hrb0⟩ := htest
    generalize deadlineReached env timeout startTime w = test at h hlog0 hrb0
    obtain ⟨flag, w1⟩ := test
    dsimp only at h hlog0 hrb0
    split at h
    · simp only [Option.some.injEq, Prod.mk.injEq] at h
      refine ⟨ev0, by rw [← h.2]; exact hlog0, ?_⟩
      have := hrb0 []
      rw [List.append_nil] at this
      rw [this]
      cases flag <;> rfl
    · rename_i hflag
      have hflag' : flag = false := by simpa using hflag
      subst hflag'
      split at h
      · exact absurd h (by simp)
      · rename_i buffer w2 hread
        generalize Int.toNat (max 1 ((9 + 2 : Int)
          - ((List.drop (scanSyncMarker buf 0) buf).length : Int))) = n at hread
        have hlog2 := fileRead_log _ _ _ _ _ hread
        have key : ∀ buf2, synchronizeLoop env timeout expectedMotorID numParameters
            startTime fuel buf2 w2 = some (b, w') →
            ∃ ev, w'.log = w.log ++ ev ∧
              readsBeforeDeadline startTime timeout false ev = true := by
          intro buf2 h2
          obtain ⟨ev2, hl2, hr2⟩ := ih _ _ h2
          refine ⟨ev0 ++ (Event.read n buffer.length :: ev2), ?_, ?_⟩
          · rw [hl2, hlog2, hlog0]; simp
          · rw [hrb0]; simp [readsBeforeDeadline, hr2]
        have done : w2 = w' → ∃ ev, w'.log = w.log ++ ev ∧
            readsBeforeDeadline startTime timeout false ev = true := by
          intro hw
          refine ⟨ev0 ++ [Event.read n buffer.length], ?_, ?_⟩
          · rw [← hw, hlog2, hlog0]; simp
          · rw [hrb0]; simp [readsBeforeDeadline]
        split at h
        · split at h
          · split at h
            · split at h
              · simp only [Option.some.injEq, Prod.mk.injEq] at h
                exact done h.2
              · exact key _ h
            · simp only [Option.some.injEq, Prod.mk.injEq] at h
              exact done h.2
          · exact key _ h
        · exact key _ h

/-- The calls made by the completion loop of `readPacket`: no read follows a clock
reading at `timeout` or more after `startTime`. -/
theorem completeLoop_log (env : Env) (timeout : Timeout) (startTime : Int)
    (incomingLength fuel : Nat) (rxBuf rx : Parameter) (flag flag' : Bool) (w w' : World)
    (h : completeLoop env timeout startTime incomingLength fuel rxBuf flag w
      = some (rx, flag', w')) :
    ∃ ev, w'.log = w.log ++ ev ∧ readsBeforeDeadline startTime timeout flag ev = true := by
  induction fuel generalizing rxBuf flag w with
  | zero => simp [completeLoop] at h
  | succ fuel ih =>
    unfold completeLoop at h
    split at h
    · rename_i hcond
      have hflag : flag = false := by simpa using hcond.2
      subst hflag
      split at h
      · exact absurd h (by simp)
      · rename_i buffer w2 hread
        generalize incomingLength - rxBuf.length = n at hread
        have hlog2 := fileRead_log _ _ _ _ _ hread
        obtain ⟨ev2, hl2, hr2⟩ := ih _ _ _ h
        by_cases ht : timeout = 0
        · refine ⟨Event.read n buffer.length :: ev2, ?_, ?_⟩
          · rw [hl2]; simp [deadlineReached, ht, hlog2]
          · simpa [readsBeforeDeadline, deadlineReached, ht] using hr2
        · refine ⟨Event.read n buffer.length :: Event.now (clockNow env w2).1 :: ev2, ?_, ?_⟩
          · rw [hl2]; simp [deadlineReached, ht, hlog2, clockNow_log]
          · simpa [readsBeforeDeadline, deadlineReached, ht] using hr2
    · simp only [Option.some.injEq, Prod.mk.injEq] at h
      exact ⟨[], by rw [← h.2.2]; simp, rfl⟩

/-- C17: with timeout 10 and a clock that reads 0 at the start of `readPacket` and 1000
after a first packet with the wrong number of parameters has been discarded,
`readPacket` starts a new synchronization and reads the transport again, although the
clock has been read at more than the timeout after its start, and it returns the second
packet with `timedOut = false`: the loop of `readPacket` does not test the deadline before
it calls `synchronizeOnHeader` again, and that call measures the timeout from its own
start. -/
theorem readPacket_reads_after_deadline :
    readPacket Env.late 10 1 0
        (World.init (createPacket 1 Instruction.STATUS [0x00, 0x05] ++
          createPacket 1 Instruction.STATUS [0x00]))
      = some ((false, 1, 0, []),
          { stream := [], reads := 3, ticks := 6,
            log := [Event.now 0, Event.now 0, Event.now 0, Event.read 11 11, Event.read 1 1,
              Event.now 0, Event.now 1000, Event.now 1000, Event.read 11 11] }) ∧
    withinDeadline 10
        [Event.now 0, Event.now 0, Event.now 0, Event.read 11 11, Event.read 1 1,
          Event.now 0, Event.now 1000, Event.now 1000, Event.read 11 11] = false := by
  decide

/-- What each loop keeps of the deadline, taken alone: a call of `synchronizeOnHeader`
begins no transport read once its own loop test has read the clock at the timeout or more
after the start of that call, and a run of the completion loop begins no transport read
once its own test has read the clock at the timeout or more after `startTime`. Readings
of the clock made outside the loop in question are not looked at, so this bounds no run
of `readPacket` as a whole. -/
theorem deadline_measured_per_loop (env : Env) (timeout : Timeout)
    (expectedMotorID : MotorID) (numParameters : Nat) (w w' : World) (b : Parameter)
    (hsync : synchronizeOnHeader env timeout expectedMotorID numParameters w = some (b, w'))
    (startTime : Int) (incomingLength fuel : Nat) (rxBuf rx : Parameter) (flag : Bool)
    (v v' : World)
    (hcomp : completeLoop env timeout startTime incomingLength fuel rxBuf false v
      = some (rx, flag, v')) :
    (∃ ev, w'.log = w.log ++ ev ∧ withinDeadline timeout ev = true) ∧
    (∃ ev, v'.log = v.log ++ ev ∧ readsBeforeDeadline startTime timeout false ev = true) := by
  constructor
  · unfold synchronizeOnHeader at hsync
    obtain ⟨ev, hl, hr⟩ := synchronizeLoop_log _ _ _ _ _ _ _ _ _ _ hsync
    refine ⟨Event.now (clockNow env w).1 :: ev, ?_, ?_⟩
    · rw [hl, clockNow_log]; simp
    · exact hr
  · exact completeLoop_log _ _ _ _ _ _ _ _ _ _ _ hcomp

/-- A synchronization on a twelve byte packet and the completion of that packet, with
timeout 10. -/
theorem deadline_measured_per_loop_witness :
    (synchronizeOnHeader Env.late 10 1 0
        (World.init (createPacket 1 Instruction.STATUS [0x00, 0x05]))
      = some ([255, 255, 253, 0, 1, 5, 0, 85, 0, 5, 77],
          { stream := [33], reads := 1, ticks := 2,
            log := [Event.now 0, Event.now 0, Event.read 11 11] }) ∧
      completeLoop Env.late 10 0 12 2 [255, 255, 253, 0, 1, 5, 0, 85, 0, 5, 77] false
          { stream := [33], reads := 1, ticks := 2,
            log := [Event.now 0, Event.now 0, Event.read 11 11] }
        = some ([255, 255, 253, 0, 1, 5, 0, 85, 0, 5, 77, 33], false,
            { stream := [], reads := 2, ticks := 3,
              log := [Event.now 0, Event.now 0, Event.read 11 11, Event.read 1 1,
                Event.now 0] })) ∧
    ((∃ ev, [Event.now 0, Event.now 0, Event.read 11 11]
          = (World.init (createPacket 1 Instruction.STATUS [0x00, 0x05])).log ++ ev ∧
        withinDeadline 10 ev = true) ∧
      (∃ ev, [Event.now 0, Event.now 0, Event.read 11 11, Event.read 1 1, Event.now 0]
          = [Event.now 0, Event.now 0, Event.read 11 11] ++ ev ∧
        readsBeforeDeadline 0 10 false ev = true)) :=
  ⟨⟨by decide, by decide⟩,
    deadline_measured_per_loop Env.late 10 1 0
      (World.init (createPacket 1 Instruction.STATUS [0x00, 0x05]))
      { stream := [33], reads := 1, ticks := 2,
        log := [Event.now 0, Event.now 0, Event.read 11 11] }
      [255, 255, 253, 0, 1, 5, 0, 85, 0, 5, 77] (by decide)
      0 12 2 [255, 255, 253, 0, 1, 5, 0, 85, 0, 5, 77]
      [255, 255, 253, 0, 1, 5, 0, 85, 0, 5, 77, 33] false
      { stream := [33], reads := 1, ticks := 2,
        log := [Event.now 0, Event.now 0, Event.read 11 11] }
      { stream := [], reads := 2, ticks := 3,
        log := [Event.now 0, Event.now 0, Event.read 11 11, Event.read 1 1, Event.now 0] }
      (by decide)⟩

/-! ## Synchronization on a packet that follows noise -/

theorem scanSyncMarker_add (l : Parameter) (i : Nat) :
    scanSyncMarker l i = i + scanSyncMarker l 0 := by
  induction l generalizing i with
  | nil => simp [scanSyncMarker]
  | cons b rest ih =>
    unfold scanSyncMarker
    split
    · rfl
    · split
      · rfl
      · rw [ih (i + 1), ih (0 + 1)]
        omega

/-- What the scan loop computes: no marker starts before the final offset, and at the
final offset either the marker starts or fewer than four bytes are left, which are the
whole buffer or its last three bytes. -/
theorem scanSyncMarker_spec (l : Parameter) :
    scanSyncMarker l 0 ≤ l.length ∧
    (∀ j, j < scanSyncMarker l 0 → (l.drop j).take 4 ≠ syncMarker) ∧
    ((l.drop (scanSyncMarker l 0)).take 4 = syncMarker ∨
      ((l.drop (scanSyncMarker l 0)).length < 4 ∧
        (scanSyncMarker l 0 = 0 ∨ (l.drop (scanSyncMarker l 0)).length = 3))) := by
  induction l with
  | nil => simp [scanSyncMarker]
  | cons b rest ih =>
    unfold scanSyncMarker
    split
    · rename_i hlt
      refine ⟨by omega, fun j hj => absurd hj (by omega), Or.inr ⟨by simpa using hlt, Or.inl rfl⟩⟩
    · rename_i hge
      split
      · rename_i hm
        exact ⟨by omega, fun j hj => absurd hj (by omega), Or.inl (by simpa using hm)⟩
      · rename_i hm
        rw [scanSyncMarker_add rest (0 + 1)]
        obtain ⟨h1, h2, h3⟩ := ih
        have hd : 0 + 1 + scanSyncMarker rest 0 = scanSyncMarker rest 0 + 1 := by omega
        rw [hd]
        refine ⟨by simp; omega, ?_, ?_⟩
        · intro j hj
          cases j with
          | zero => simpa using hm
          | succ j => simpa using h2 j (by omega)
        · rcases h3 with h3 | ⟨h3, h4⟩
          · exact Or.inl (by simpa using h3)
          · refine Or.inr ⟨by simpa using h3, Or.inr ?_⟩
            rcases h4 with h4 | h4
            · rw [h4] at h3 ⊢
              simp only [List.drop_zero, List.length_cons, not_lt] at h3 hge ⊢
              simp only [List.drop_succ_cons, List.drop_zero]
              omega
            · simpa using h4

theorem deadlineReached_stream (env : Env) (timeout : Timeout) (startTime : Int) (w : World) :
    (deadlineReached env timeout startTime w).2.stream = w.stream := by
  unfold deadlineReached
  split <;> rfl

theorem fileRead_stream_lt (env : Env) (w w' : World) (n : Nat) (buffer : Parameter)
    (hn : 1 ≤ n) (h : fileRead env w n = some (buffer, w')) :
    w'.stream.length < w.stream.length := by
  unfold fileRead at h
  split at h
  · exact absurd h (by simp)
  · rename_i hs
    have hpos : 0 < w.stream.length := List.length_pos.2 hs
    simp only [Option.some.injEq, Prod.mk.injEq] at h
    rw [← h.2]
    simp only [List.length_drop]
    omega

/-- The loop of `synchronizeOnHeader` takes bytes from the bus and never puts one back; a
buffer of nine bytes or more is returned only after a read. -/
theorem synchronizeLoop_stream_le (env : Env) (timeout : Timeout) (expectedMotorID : MotorID)
    (numParameters : Nat) (startTime : Int) (fuel : Nat) (buf b : Parameter) (w w' : World)
    (h : synchronizeLoop env timeout expectedMotorID numParameters startTime fuel buf w
      = some (b, w')) :
    w'.stream.length ≤ w.stream.length ∧
      (9 ≤ b.length → w'.stream.length < w.stream.length) := by
  induction fuel generalizing buf w with
  | zero => simp [synchronizeLoop] at h
  | succ fuel ih =>
    unfold synchronizeLoop at h
    have hts := deadlineReached_stream env timeout startTime w
    generalize deadlineReached env timeout startTime w = test at h hts
    obtain ⟨flag, w1⟩ := test
    dsimp only at h hts
    split at h
    · simp only [Option.some.injEq, Prod.mk.injEq] at h
      rw [← h.1, ← h.2, hts]
      exact ⟨Nat.le_refl _, fun h9 => absurd h9 (by simp)⟩
    · split at h
      · exact absurd h (by simp)
      · rename_i buffer w2 hread
        have hlt := fileRead_stream_lt env w1 w2 _ buffer (by omega) hread
        rw [hts] at hlt
        have key : ∀ buf2, synchronizeLoop env timeout expectedMotorID numParameters
            startTime fuel buf2 w2 = some (b, w') →
            w'.stream.length ≤ w.stream.length ∧
              (9 ≤ b.length → w'.stream.length < w.stream.length) := by
          intro buf2 h2
          have := ih _ _ h2
          exact ⟨by omega, fun _ => by omega⟩
        have done : w2 = w' → w'.stream.length ≤ w.stream.length ∧
            (9 ≤ b.length → w'.stream.length < w.stream.length) := by
          intro hw
          rw [← hw]
          exact ⟨by omega, fun _ => hlt⟩
        split at h
        · split at h
          · split at h
            · split at h
              · simp only [Option.some.injEq, Prod.mk.injEq] at h
                exact done h.2
              · exact key _ h
            · simp only [Option.some.injEq, Prod.mk.injEq] at h
              exact done h.2
          · exact key _ h
        · exact key _ h

/-- More fuel than there are bytes on the bus does not change the result of the loop of
`synchronizeOnHeader`. -/
theorem synchronizeLoop_fuel (env : Env) (timeout : Timeout) (expectedMotorID : MotorID)
    (numParameters : Nat) (startTime : Int) (fuel₁ fuel₂ : Nat) (buf : Parameter) (w : World)
    (h₁ : w.stream.length < fuel₁) (h₂ : w.stream.length < fuel₂) :
    synchronizeLoop env timeout expectedMotorID numParameters startTime fuel₁ buf w
      = synchronizeLoop env timeout expectedMotorID numParameters startTime fuel₂ buf w := by
  induction fuel₁ generalizing fuel₂ buf w with
  | zero => omega
  | succ fuel₁ ih =>
    cases fuel₂ with
    | zero => omega
    | succ fuel₂ =>
      unfold synchronizeLoop
      have hts := deadlineReached_stream env timeout startTime w
      generalize deadlineReached env timeout startTime w = test at hts
      obtain ⟨flag, w1⟩ := test
      dsimp only at hts ⊢
      split
      · rfl
      · split
        · rfl
        · rename_i buffer w2 hread
          have hlt := fileRead_stream_lt env w1 w2 _ buffer (by omega) hread
          rw [hts] at hlt
          have key : ∀ buf2, synchronizeLoop env timeout expectedMotorID numParameters
              startTime fuel₁ buf2 w2
              = synchronizeLoop env timeout expectedMotorID numParameters
                  startTime fuel₂ buf2 w2 :=
            fun buf2 => ih fuel₂ buf2 w2 (by omega) (by omega)
          simp only [key]

theorem completeLoop_stream_le (env : Env) (timeout : Timeout) (startTime : Int)
    (incomingLength fuel : Nat) (rxBuf rx : Parameter) (flag flag' : Bool) (w w' : World)
    (h : completeLoop env timeout startTime incomingLength fuel rxBuf flag w
      = some (rx, flag', w')) :
    w'.stream.length ≤ w.stream.length := by
  induction fuel generalizing rxBuf flag w with
  | zero => simp [completeLoop] at h
  | succ fuel ih =>
    unfold completeLoop at h
    split at h
    · rename_i hcond
      split at h
      · exact absurd h (by simp)
      · rename_i buffer w2 hread
        have hlt := fileRead_stream_lt env w w2 _ buffer (by omega) hread
        have := ih _ _ _ h
        rw [deadlineReached_stream] at this
        omega
    · simp only [Option.some.injEq, Prod.mk.injEq] at h
      rw [← h.2.2]

/-- More fuel than there are bytes on the bus does not change the result of the
completion loop of `readPacket`. -/
theorem completeLoop_fuel (env : Env) (timeout : Timeout) (startTime : Int)
    (incomingLength fuel₁ fuel₂ : Nat) (rxBuf : Parameter) (flag : Bool) (w : World)
    (h₁ : w.stream.length < fuel₁) (h₂ : w.stream.length < fuel₂) :
    completeLoop env timeout startTime incomingLength fuel₁ rxBuf flag w
      = completeLoop env timeout startTime incomingLength fuel₂ rxBuf flag w := by
  induction fuel₁ generalizing fuel₂ rxBuf flag w with
  | zero => omega
  | succ fuel₁ ih =>
    cases fuel₂ with
    | zero => omega
    | succ fuel₂ =>
      unfold completeLoop
      split
      · rename_i hcond
        split
        · rfl
        · rename_i buffer w2 hread
          have hlt := fileRead_stream_lt env w w2 _ buffer (by omega) hread
          exact ih fuel₂ _ _ _ (by rw [deadlineReached_stream]; omega)
            (by rw [deadlineReached_stream]; omega)
      · rfl

/-- More fuel than there are bytes on the bus does not change the result of the loop of
`readPacket`: a result `none` stands for a read that never returns or for an undefined
`extractPayload`, not for a lack of fuel. -/
theorem readPacketLoop_fuel (env : Env) (timeout : Timeout) (expectedMotorID : MotorID)
    (numParameters : Nat) (startTime : Int) (fuel₁ fuel₂ : Nat) (w : World)
    (h₁ : w.stream.length < fuel₁) (h₂ : w.stream.length < fuel₂) :
    readPacketLoop env timeout expectedMotorID numParameters startTime fuel₁ w
      = readPacketLoop env timeout expectedMotorID numParameters startTime fuel₂ w := by
  induction fuel₁ generalizing fuel₂ w with
  | zero => omega
  | succ fuel₁ ih =>
    cases fuel₂ with
    | zero => omega
    | succ fuel₂ =>
      unfold readPacketLoop
      split
      · rfl
      · rename_i rxBuf w1 hsync
        unfold synchronizeOnHeader at hsync
        have hle := synchronizeLoop_stream_le _ _ _ _ _ _ _ _ _ _ hsync
        have hw0 : (clockNow env w).2.stream.length = w.stream.length := rfl
        split
        · rfl
        · rename_i h9
          dsimp only
          split
          · rfl
          · rename_i rx flag w2 hcomp
            have hle2 := completeLoop_stream_le _ _ _ _ _ _ _ _ _ _ _ hcomp
            split
            · rfl
            · split
              · rfl
              · split
                · exact ih fuel₂ w2 (by omega) (by omega)
                · rfl

/-! ## The search step and the size of the reads -/

theorem marker_at_iff (l : Parameter) (j : Nat) :
    (l.drop j).take 4 = syncMarker ↔
      ∃ pre post, l = pre ++ syncMarker ++ post ∧ pre.length = j := by
  constructor
  · intro h
    have hlen : 4 ≤ (l.drop j).length := by
      have := congrArg List.length h
      simp only [List.length_take, syncMarker, List.length_cons, List.length_nil] at this
      omega
    refine ⟨l.take j, (l.drop j).drop 4, ?_, ?_⟩
    · rw [← h, List.append_assoc, List.take_append_drop, List.take_append_drop]
    · rw [List.length_take]
      simp at hlen
      omega
  · rintro ⟨pre, post, rfl, rfl⟩
    rw [List.append_assoc, List.drop_left]
    exact List.take_left' rfl

/-- C23: the search step of `synchronizeOnHeader` (scan, then erase) never loses a frame
start: its result is a suffix of the buffer; if the buffer contains `FF FF FD 00` the
result begins at the first occurrence; and if it does not, every trailing part of the
buffer that is a proper prefix of `FF FF FD 00` is retained. -/
theorem search_step_keeps_frame_start (buf : Parameter) :
    (∃ pre, buf = pre ++ buf.drop (scanSyncMarker buf 0)) ∧
    ((∃ pre post, buf = pre ++ syncMarker ++ post) →
      ∃ pre post, buf = pre ++ syncMarker ++ post ∧
        buf.drop (scanSyncMarker buf 0) = syncMarker ++ post ∧
        ∀ pre' post', buf = pre' ++ syncMarker ++ post' → pre.length ≤ pre'.length) ∧
    ((¬ ∃ pre post, buf = pre ++ syncMarker ++ post) →
      ∀ t u, u ≠ [] → t ++ u = syncMarker → (∃ pre, buf = pre ++ t) →
        ∃ pre', buf.drop (scanSyncMarker buf 0) = pre' ++ t) := by
  obtain ⟨h1, h2, h3⟩ := scanSyncMarker_spec buf
  generalize scanSyncMarker buf 0 = d at h1 h2 h3
  have hmin : ∀ pre' post', buf = pre' ++ syncMarker ++ post' → d ≤ pre'.length := by
    intro pre' post' hocc
    by_contra hcon
    exact h2 pre'.length (by omega) ((marker_at_iff buf pre'.length).2 ⟨pre', post', hocc, rfl⟩)
  refine ⟨⟨buf.take d, (List.take_append_drop d buf).symm⟩, ?_, ?_⟩
  · rintro ⟨pre', post', hocc⟩
    rcases h3 with hm | ⟨hlt, _⟩
    · obtain ⟨pre, post, hb, hpl⟩ := (marker_at_iff buf d).1 hm
      refine ⟨pre, post, hb, ?_, ?_⟩
      · rw [hb, ← hpl, List.append_assoc, List.drop_left]
      · intro p q hpq
        rw [hpl]
        exact hmin p q hpq
    · exfalso
      have hd := hmin pre' post' hocc
      have hl := congrArg List.length hocc
      simp only [List.length_append, syncMarker, List.length_cons, List.length_nil] at hl
      simp only [List.length_drop] at hlt
      omega
  · intro hno t u hu htu hsuf
    obtain ⟨pre, hpre⟩ := hsuf
    rcases h3 with hm | ⟨hlt, hlast⟩
    · obtain ⟨pre', post', hb, _⟩ := (marker_at_iff buf d).1 hm
      exact absurd ⟨pre', post', hb⟩ hno
    · have ht : t.length < 4 := by
        have hl := congrArg List.length htu
        have hu' : 0 < u.length := List.length_pos.2 hu
        simp only [List.length_append, syncMarker, List.length_cons, List.length_nil] at hl
        omega
      have hbl := congrArg List.length hpre
      simp only [List.length_append] at hbl
      simp only [List.length_drop] at hlt hlast
      refine ⟨pre.drop d, ?_⟩
      rw [hpre, List.drop_append_of_le_length (by omega)]

theorem synchronizeLoop_step (env : Env) (timeout : Timeout) (expectedMotorID : MotorID)
    (numParameters : Nat) (startTime : Int) (fuel : Nat) (buf : Parameter) (w : World)
    (hlive : (deadlineReached env timeout startTime w).1 = false) :
    synchronizeLoop env timeout expectedMotorID numParameters startTime (fuel + 1) buf w
      = match fileRead env (deadlineReached env timeout startTime w).2
          (max 1 (11 - (buf.drop (scanSyncMarker buf 0)).length)) with
        | none => none
        | some (buffer, w2) =>
          synchronizeCheck env timeout expectedMotorID numParameters startTime fuel
            (buf.drop (scanSyncMarker buf 0) ++ buffer) w2 := by
  have hbytes : Int.toNat (max 1 ((9 + 2 : Int)
      - ((buf.drop (scanSyncMarker buf 0)).length : Int)))
      = max 1 (11 - (buf.drop (scanSyncMarker buf 0)).length) := by
    omega
  rw [synchronizeLoop]
  simp only [hlive, Bool.false_eq_true, if_false, hbytes]
  rfl

/-- C24 fails as stated: on an empty buffer, from which nine bytes are missing to a
complete header, `synchronizeOnHeader` requests eleven bytes from the transport. -/
theorem synchronizeOnHeader_requests_eleven :
    (synchronizeOnHeader Env.steady 0 1 0
        (World.init (createPacket 1 Instruction.STATUS [0x00]))).map (fun r => r.2.log)
      = some [Event.now 0, Event.read 11 11] ∧
    ¬ (11 ≤ 9 - ([] : Parameter).length) := by
  decide

/-- C24, as the code has it: in every iteration of the loop of `synchronizeOnHeader` that
passes the deadline test, the number of bytes requested from the transport is
`max 1 (11 - size)`, where `size` is the number of bytes buffered after the search step:
at least 1, at most 11, and exactly what is missing from 11 bytes (the nine header bytes
and two more) when fewer than 11 are buffered. -/
theorem bytesToRead_spec (env : Env) (timeout : Timeout) (expectedMotorID : MotorID)
    (numParameters : Nat) (startTime : Int) (fuel : Nat) (buf : Parameter) (w : World)
    (hlive : (deadlineReached env timeout startTime w).1 = false) :
    ∃ bytesToRead,
      synchronizeLoop env timeout expectedMotorID numParameters startTime (fuel + 1) buf w
        = (match fileRead env (deadlineReached env timeout startTime w).2 bytesToRead with
          | none => none
          | some (buffer, w2) =>
            synchronizeCheck env timeout expectedMotorID numParameters startTime fuel
              (buf.drop (scanSyncMarker buf 0) ++ buffer) w2) ∧
      bytesToRead = max 1 (11 - (buf.drop (scanSyncMarker buf 0)).length) ∧
      1 ≤ bytesToRead ∧ bytesToRead ≤ 11 ∧
      ((buf.drop (scanSyncMarker buf 0)).length < 11 →
        (buf.drop (scanSyncMarker buf 0)).length + bytesToRead = 11) :=
  ⟨max 1 (11 - (buf.drop (scanSyncMarker buf 0)).length),
    synchronizeLoop_step env timeout expectedMotorID numParameters startTime fuel buf w hlive,
    rfl, by omega, by omega, fun h => by omega⟩

/-- With three noise bytes buffered and no deadline, eight bytes are requested. -/
theorem bytesToRead_spec_witness :
    (deadlineReached Env.steady 0 0 (World.init [0xff, 0xff, 0xfd, 0x00])).1 = false ∧
    ∃ bytesToRead,
      synchronizeLoop Env.steady 0 1 0 0 (4 + 1) [0x01, 0x02, 0x03, 0x04, 0x05]
          (World.init [0xff, 0xff, 0xfd, 0x00])
        = (match fileRead Env.steady
              (deadlineReached Env.steady 0 0 (World.init [0xff, 0xff, 0xfd, 0x00])).2
              bytesToRead with
          | none => none
          | some (buffer, w2) =>
            synchronizeCheck Env.steady 0 1 0 0 4
              (([0x01, 0x02, 0x03, 0x04, 0x05] : Parameter).drop
                (scanSyncMarker [0x01, 0x02, 0x03, 0x04, 0x05] 0) ++ buffer) w2) ∧
      bytesToRead = max 1 (11 - (([0x01, 0x02, 0x03, 0x04, 0x05] : Parameter).drop
        (scanSyncMarker [0x01, 0x02, 0x03, 0x04, 0x05] 0)).length) ∧
      1 ≤ bytesToRead ∧ bytesToRead ≤ 11 ∧
      ((([0x01, 0x02, 0x03, 0x04, 0x05] : Parameter).drop
          (scanSyncMarker [0x01, 0x02, 0x03, 0x04, 0x05] 0)).length < 11 →
        (([0x01, 0x02, 0x03, 0x04, 0x05] : Parameter).drop
          (scanSyncMarker [0x01, 0x02, 0x03, 0x04, 0x05] 0)).length + bytesToRead = 11) :=
  ⟨by decide,
    bytesToRead_spec Env.steady 0 1 0 0 4 [0x01, 0x02, 0x03, 0x04, 0x05]
      (World.init [0xff, 0xff, 0xfd, 0x00]) (by decide)⟩

/-! ## Payload extraction from a ten byte packet -/

/-- C26: the ten byte ping packet that `createPacket` builds for an empty payload is
accepted by `validatePacket`, its length field is 3, the end `9 + len - 4 = 8` of the
payload slice lies before its start 9, and `extractPayload` is undefined on it. -/
theorem extractPayload_undefined_on_ping :
    createPacket 1 Instruction.PING []
      = [0xff, 0xff, 0xfd, 0x00, 0x01, 0x03, 0x00, 0x01, 0x19, 0x4e] ∧
    validatePacket (createPacket 1 Instruction.PING []) = true ∧
    decodeLE16 ((createPacket 1 Instruction.PING []).drop 5) = 3 ∧
    ¬ (9 ≤ 9 + decodeLE16 ((createPacket 1 Instruction.PING []).drop 5) - 4) ∧
    extractPayload (createPacket 1 Instruction.PING []) = none := by
  decide

/-! ## Decoding a status frame built by `createPacket` -/

theorem addEscapesStep_acc (s : Nat) (acc : Parameter) (b : Byte) :
    addEscapesStep (s, acc) b
      = ((addEscapesStep (s, []) b).1, acc ++ (addEscapesStep (s, []) b).2) := by
  unfold addEscapesStep
  dsimp only
  split
  · simp
  · split
    · simp
    · split
      · simp
      · simp

theorem addEscapes_fold_acc (d : Parameter) (s : Nat) (acc : Parameter) :
    d.foldl addEscapesStep (s, acc)
      = ((d.foldl addEscapesStep (s, [])).1, acc ++ (d.foldl addEscapesStep (s, [])).2) := by
  induction d generalizing s acc with
  | nil => simp
  | cons b rest ih =>
    rw [List.foldl_cons, List.foldl_cons, addEscapesStep_acc s acc b,
      ih (addEscapesStep (s, []) b).1 (acc ++ (addEscapesStep (s, []) b).2),
      ih (addEscapesStep (s, []) b).1 (addEscapesStep (s, []) b).2]
    simp

/-- A first byte other than `FF` is copied and leaves the stuffing in its initial state. -/
theorem addEscapes_cons_of_ne (e : Byte) (d : Parameter) (he : e ≠ 0xff) :
    addEscapes (e :: d) = e :: addEscapes d := by
  unfold addEscapes
  have hstep : addEscapesStep (0, []) e = (0, [e]) := by
    simp [addEscapesStep, he]
  rw [List.foldl_cons, hstep, addEscapes_fold_acc d 0 [e]]
  rfl

/-- C27 fails as stated: for the error byte `FF` and the data bytes `FF FD` the packet
built by `createPacket` decodes to the data bytes `FF FD FD`. -/
theorem extractPayload_createPacket_status_ff :
    (addEscapes ([0xff] ++ [0xff, 0xfd])).length + 10 ≤ 65535 ∧
    extractPayload (createPacket 1 Instruction.STATUS ([0xff] ++ [0xff, 0xfd]))
      = some (1, 0xff, [0xff, 0xfd, 0xfd]) ∧
    extractPayload (createPacket 1 Instruction.STATUS ([0xff] ++ [0xff, 0xfd]))
      ≠ some (1, 0xff, [0xff, 0xfd]) := by
  decide

/-- C27, as the code has it: for every motor id, every error byte `e` other than `FF`
and all data bytes `d` whose packet fits the size limit, decoding the status frame built
by `createPacket` from `[e] ++ d` gives `(motorID, e, d)`. -/
theorem extractPayload_createPacket_status (motorID : MotorID) (e : ErrorCode)
    (d : Parameter) (he : e ≠ 0xff)
    (hsize : (addEscapes ([e] ++ d)).length + 10 ≤ 65535) :
    extractPayload (createPacket motorID Instruction.STATUS ([e] ++ d))
      = some (motorID, e, d) := by
  have hesc : addEscapes ([e] ++ d) = e :: addEscapes d := addEscapes_cons_of_ne e d he
  have hvalid := createPacket_valid_of_lt motorID Instruction.STATUS ([e] ++ d) (by omega)
  have hlen := createPacket_length motorID Instruction.STATUS ([e] ++ d)
  rw [hesc, List.length_cons] at hlen
  rw [extractPayload_eq_of_valid _ (by omega) hvalid, createPacket_take]
  have h4 : (createPacket motorID Instruction.STATUS ([e] ++ d)).getD 4 0 = motorID := by
    rw [createPacket_eq]; rfl
  have h8 : (createPacket motorID Instruction.STATUS ([e] ++ d)).getD 8 0 = e := by
    rw [createPacket_eq, hesc]; rfl
  have hdrop : (packetHeader motorID Instruction.STATUS (addEscapes ([e] ++ d)).length
      ++ addEscapes ([e] ++ d)).drop 9 = addEscapes d := by
    rw [hesc]; rfl
  have hround : removeEscapes (addEscapes d) = d := by
    unfold removeEscapes addEscapes
    rw [(removeEscapes_fold_addEscapes_fold d).2]
  rw [h4, h8, hdrop, hround]

/-- The status frame of motor 1 with error byte 0 and data bytes `FF FF FD` decodes to
its fields. -/
theorem extractPayload_createPacket_status_witness :
    ((0x00 : ErrorCode) ≠ 0xff ∧
      (addEscapes ([0x00] ++ [0xff, 0xff, 0xfd])).length + 10 ≤ 65535) ∧
    extractPayload (createPacket 1 Instruction.STATUS ([0x00] ++ [0xff, 0xff, 0xfd]))
      = some (1, 0x00, [0xff, 0xff, 0xfd]) :=
  ⟨⟨by decide, by decide⟩,
    extractPayload_createPacket_status 1 0x00 [0xff, 0xff, 0xfd] (by decide) (by decide)⟩

/-! ## The checksum is the bit-by-bit CRC-16 -/

theorem testBit_crc16Round (x j : Nat) :
    (crc16Round x).testBit j
      = (decide (j < 16) && (Bool.xor (decide (1 ≤ j) && x.testBit (j - 1))
          (x.testBit 15 && (0x8005 : Nat).testBit j))) := by
  unfold crc16Round
  have h16 : (65536 : Nat) = 2 ^ 16 := rfl
  split
  · rename_i h
    rw [h16, Nat.testBit_mod_two_pow, Nat.testBit_xor, Nat.testBit_shiftLeft, h]
    simp
  · rename_i h
    rw [h16, Nat.testBit_mod_two_pow, Nat.testBit_shiftLeft]
    simp [h]

theorem crc16Round_xor (x y : Nat) :
    crc16Round (x ^^^ y) = crc16Round x ^^^ crc16Round y := by
  apply Nat.eq_of_testBit_eq
  intro j
  simp only [testBit_crc16Round, Nat.testBit_xor]
  cases decide (j < 16) <;> cases decide (1 ≤ j) <;> cases x.testBit (j - 1) <;>
    cases y.testBit (j - 1) <;> cases x.testBit 15 <;> cases y.testBit 15 <;>
    cases (0x8005 : Nat).testBit j <;> rfl

theorem crc16Round_iterate_xor (n x y : Nat) :
    crc16Round^[n] (x ^^^ y) = crc16Round^[n] x ^^^ crc16Round^[n] y := by
  induction n generalizing x y with
  | zero => rfl
  | succ n ih =>
    rw [Function.iterate_succ_apply, Function.iterate_succ_apply,
      Function.iterate_succ_apply, crc16Round_xor, ih]

set_option maxRecDepth 100000 in
theorem crc16Round_low (lo : Fin 256) : crc16Round^[8] lo.val = lo.val <<< 8 := by
  revert lo
  decide

set_option maxRecDepth 100000 in
theorem crc16Round_high (hi : Fin 256) :
    crc16Round^[8] (hi.val <<< 8) = crc_table.getD hi.val 0 := by
  revert hi
  decide

theorem split_high_low (x : Nat) : x = ((x >>> 8) <<< 8) ^^^ (x % 256) := by
  apply Nat.eq_of_testBit_eq
  intro j
  have h256 : (256 : Nat) = 2 ^ 8 := rfl
  rw [Nat.testBit_xor, Nat.testBit_shiftLeft, Nat.testBit_shiftRight, h256,
    Nat.testBit_mod_two_pow]
  by_cases hj : j < 8
  · have : ¬ j ≥ 8 := by omega
    simp [hj, this]
  · have h8 : j ≥ 8 := by omega
    have hadd : 8 + (j - 8) = j := by omega
    simp [hj, h8, hadd]

/-- One step of the table driven loop is the bit-by-bit CRC over one byte. -/
theorem checksumStep_eq_crc16Byte (c : Nat) (b : Byte) (hc : c < 65536) :
    checksumStep c b = crc16Byte c b := by
  have hhigh : (c ^^^ (b.val <<< 8)) >>> 8 = (c / 256) ^^^ b.val := by
    apply Nat.eq_of_testBit_eq
    intro j
    have hdiv : c / 256 = c >>> 8 := by
      rw [Nat.shiftRight_eq_div_pow]
    rw [hdiv]
    simp only [Nat.testBit_xor, Nat.testBit_shiftLeft, Nat.testBit_shiftRight]
    have h1 : 8 + j ≥ 8 := by omega
    have h2 : 8 + j - 8 = j := by omega
    simp [h1, h2]
  have hlow : (c ^^^ (b.val <<< 8)) % 256 = c % 256 := by
    rw [xor_mod_256, Nat.shiftLeft_eq]
    have : b.val * 2 ^ 8 % 256 = 0 := by omega
    rw [this, Nat.xor_zero]
  have hidx : (c / 256) ^^^ b.val < 256 :=
    Nat.xor_lt_two_pow (n := 8) (by omega) b.isLt
  have hci : checksumIndex c b = (c / 256) ^^^ b.val := by
    unfold checksumIndex
    rw [Nat.mod_eq_of_lt (by omega)]
  unfold crc16Byte
  rw [split_high_low (c ^^^ (b.val <<< 8)), crc16Round_iterate_xor, hhigh, hlow,
    crc16Round_high ⟨(c / 256) ^^^ b.val, hidx⟩,
    crc16Round_low ⟨c % 256, Nat.mod_lt _ (by decide)⟩,
    checksumStep_eq, hci, Nat.shiftLeft_eq, Nat.xor_comm]

theorem checksum_fold_eq_crc16 (data : Parameter) (c : Nat) (hc : c < 65536) :
    data.foldl checksumStep c = data.foldl crc16Byte c := by
  induction data generalizing c with
  | nil => rfl
  | cons b rest ih =>
    rw [List.foldl_cons, List.foldl_cons, ← checksumStep_eq_crc16Byte c b hc]
    exact ih _ (checksumStep_lt c b)

/-- C25: for every byte sequence, `calculateChecksum` is the bit-by-bit (MSB-first,
non-reflected) CRC-16 with generator polynomial 0x8005, initial value 0 and no final
XOR, emitted low byte first; and every entry `i` of the 256 entry table is the result of
that bit-by-bit CRC over the single byte `i`. -/
theorem calculateChecksum_eq_crc16 :
    (∀ data : Parameter, calculateChecksum data = crc16BitwiseBytes data) ∧
    (∀ i : Fin 256, crc_table.getD i.val 0 = crc16Bitwise [i]) ∧
    crc_table.length = 256 := by
  refine ⟨?_, ?_, crc_table_length⟩
  · intro data
    unfold calculateChecksum crc16BitwiseBytes crc16Bitwise
    rw [← checksum_fold_eq_crc16 data 0 (by decide)]
    have hlt := checksum_fold_lt data 0 (by decide)
    generalize data.foldl checksumStep 0 = c at hlt
    simp only [and_255, Nat.shiftRight_eq_div_pow, toByte, List.cons.injEq, Fin.mk.injEq,
      and_true]
    have h8 : (2 : Nat) ^ 8 = 256 := rfl
    rw [h8]
    exact ⟨trivial, (Nat.mod_eq_of_lt (by omega)).trans rfl⟩
  · intro i
    unfold crc16Bitwise
    rw [List.foldl_cons, List.foldl_nil, ← checksumStep_eq_crc16Byte 0 i (by decide),
      checksumStep_eq]
    have hci : checksumIndex 0 i = i.val := by
      unfold checksumIndex
      simp
    rw [hci]
    simp

/-! ## The model catalog of the Pro series -/

namespace pro

set_option maxRecDepth 100000 in
/-- C21: in the catalog returned by `getDefaults`, for each of the five derived models and
every register other than `MODEL_NUMBER` and the registers assigned in the block of that
model, the default value is the default of the base model 46352; and for every model of
the catalog the `MODEL_NUMBER` default and the field `modelNumber` are its key. -/
theorem derived_defaults_follow_base :
    catalogKeys = [46352, 46096, 43288, 54024, 53768, 51200] ∧
    (∀ r : Register, r ∉ [Register.MODEL_NUMBER, Register.TORQUE_LIMIT] →
      defaultEntry 46096 r = defaultEntry 46352 r) ∧
    (∀ r : Register, r ∉ [Register.MODEL_NUMBER, Register.TORQUE_LIMIT,
        Register.MAX_POSITION_LIMIT, Register.MIN_POSITION_LIMIT, Register.VELOCITY_I_GAIN,
        Register.VELOCITY_P_GAIN, Register.POSITION_P_GAIN] →
      defaultEntry 43288 r = defaultEntry 46352 r) ∧
    (∀ r : Register, r ∉ [Register.MODEL_NUMBER, Register.TORQUE_LIMIT,
        Register.VELOCITY_LIMIT, Register.MAX_POSITION_LIMIT, Register.MIN_POSITION_LIMIT,
        Register.VELOCITY_I_GAIN, Register.VELOCITY_P_GAIN, Register.POSITION_P_GAIN] →
      defaultEntry 54024 r = defaultEntry 46352 r) ∧
    (∀ r : Register, r ∉ [Register.MODEL_NUMBER, Register.TORQUE_LIMIT,
        Register.VELOCITY_LIMIT, Register.MAX_POSITION_LIMIT, Register.MIN_POSITION_LIMIT,
        Register.VELOCITY_I_GAIN, Register.VELOCITY_P_GAIN, Register.POSITION_P_GAIN] →
      defaultEntry 53768 r = defaultEntry 46352 r) ∧
    (∀ r : Register, r ∉ [Register.MODEL_NUMBER, Register.ACCELERATION_LIMIT,
        Register.TORQUE_LIMIT, Register.VELOCITY_LIMIT, Register.MAX_POSITION_LIMIT,
        Register.MIN_POSITION_LIMIT, Register.VELOCITY_I_GAIN, Register.VELOCITY_P_GAIN,
        Register.POSITION_P_GAIN] →
      defaultEntry 51200 r = defaultEntry 46352 r) ∧
    (∀ key ∈ catalogKeys,
      defaultEntry key Register.MODEL_NUMBER = some (some (key : Int)) ∧
      modelNumberOf key = some key) := by
  decide

set_option maxRecDepth 100000 in
/-- C22 fails as stated: the register `INDIRECT_ADDRESS_BLOCK` is listed in the layout
returned by `getInfos`, and the default layout of model 46352 has no entry for it. -/
theorem indirect_block_without_default :
    Register.INDIRECT_ADDRESS_BLOCK ∈ MotorLayoutInfo.getInfos.map Prod.fst ∧
    46352 ∈ catalogKeys ∧
    defaultEntry 46352 Register.INDIRECT_ADDRESS_BLOCK = none := by
  decide

set_option maxRecDepth 100000 in
/-- C22, as the code has it: for every model of the catalog returned by `getDefaults` and
every register listed in the layout returned by `getInfos`, other than the two block
registers `INDIRECT_ADDRESS_BLOCK` and `INDIRECT_DATA_BLOCK`, the default layout of the
model has an entry for that register; for the two block registers no model has one. -/
theorem defaults_cover_layout :
    (∀ key ∈ catalogKeys, ∀ r ∈ MotorLayoutInfo.getInfos.map Prod.fst,
      r ≠ Register.INDIRECT_ADDRESS_BLOCK → r ≠ Register.INDIRECT_DATA_BLOCK →
        (defaultEntry key r).isSome = true) ∧
    (∀ key ∈ catalogKeys,
      defaultEntry key Register.INDIRECT_ADDRESS_BLOCK = none ∧
      defaultEntry key Register.INDIRECT_DATA_BLOCK = none) := by
  decide

end pro

end dynamixel

/-! ## The command-line tokenizer: nothing is lost -/

namespace sargp

theorem find_eq_zero_iff (str pat : Str) :
    find str pat = some 0 ↔ pat.isPrefixOf str = true := by
  cases str with
  | nil =>
    cases pat with
    | nil => simp [find]
    | cons a p => simp [find, List.isPrefixOf]
  | cons c s =>
    unfold find
    by_cases h : pat.isPrefixOf (c :: s) = true
    · simp [h]
    · simp [h]

theorem isArgName_iff (str : Str) : isArgName str = true ↔ ['-', '-'] <+: str := by
  unfold isArgName
  rw [beq_iff_eq, find_eq_zero_iff, List.isPrefixOf_iff_prefix]

theorem isArgName_drop (str : Str) (h : isArgName str = true) :
    ['-', '-'] ++ str.drop 2 = str := by
  rw [isArgName_iff] at h
  obtain ⟨t, rfl⟩ := h
  rfl

theorem commandLoop_eq (argv : List Str) :
    commandLoop argv =
      (argv.takeWhile (fun a => !isArgName a), argv.dropWhile (fun a => !isArgName a)) := by
  induction argv with
  | nil => rfl
  | cons a rest ih =>
    unfold commandLoop
    by_cases h : isArgName a = true
    · simp [h, List.takeWhile, List.dropWhile]
    · simp only [Bool.not_eq_true] at h
      simp [h, ih, List.takeWhile, List.dropWhile]

theorem argumentsLoop_eq (argv : List Str) :
    argumentsLoop argv =
      (argv.takeWhile (fun a => !isArgName a), argv.dropWhile (fun a => !isArgName a)) := by
  induction argv with
  | nil => rfl
  | cons a rest ih =>
    unfold argumentsLoop
    by_cases h : isArgName a = true
    · simp [h, List.takeWhile, List.dropWhile]
    · simp only [Bool.not_eq_true] at h
      simp [h, ih, List.takeWhile, List.dropWhile]

theorem dropWhile_head (argv : List Str) :
    ∀ a ∈ (argv.dropWhile (fun a => !isArgName a)).head?, isArgName a = true := by
  induction argv with
  | nil => simp
  | cons b rest ih =>
    by_cases h : isArgName b = true
    · simp [List.dropWhile, h]
    · simp only [Bool.not_eq_true] at h
      simpa [List.dropWhile, h] using ih

theorem paramLoop_spec (fuel : Nat) (left : List Str) (hf : left.length ≤ fuel)
    (hh : ∀ a ∈ left.head?, isArgName a = true) :
    (∀ p ∈ paramLoop fuel left, ∀ v ∈ p.2, isArgName v = false) ∧
    ((paramLoop fuel left).map (fun p => (['-', '-'] ++ p.1) :: p.2)).flatten = left := by
  induction fuel generalizing left with
  | zero =>
    have : left = [] := List.length_eq_zero.mp (Nat.le_zero.mp hf)
    subst this
    simp [paramLoop]
  | succ n ih =>
    cases left with
    | nil => simp [paramLoop]
    | cons arg rest =>
      have harg : isArgName arg = true := hh arg (by simp)
      have hlen : (rest.dropWhile (fun a => !isArgName a)).length ≤ n := by
        have h1 := (List.dropWhile_sublist (fun a => !isArgName a) (l := rest)).length_le
        simp only [List.length_cons] at hf
        omega
      obtain ⟨ih1, ih2⟩ := ih _ hlen (dropWhile_head rest)
      simp only [paramLoop, argumentsLoop_eq]
      constructor
      · intro p hp v hv
        rcases List.mem_cons.mp hp with rfl | hp
        · have := List.mem_takeWhile_imp hv
          simpa using this
        · exact ih1 p hp v hv
      · simp only [List.map_cons, List.flatten_cons, ih2]
        rw [isArgName_drop arg harg]
        simp [List.takeWhile_append_dropWhile]

/-- C28: for every argument vector `argv`, `tokenize` returns, and nothing is lost or
reordered: the command callback receives, in order, the longest initial run of arguments
that do not start with `--`; every value handed to the parameter callback does not start
with `--`; and the commands followed, for each call of the parameter callback in order, by
`--` with the name appended and then its values, are the argument vector. -/
theorem tokenize_spec (argv : List Str) :
    (tokenize argv).1 = argv.takeWhile (fun a => decide ¬ (['-', '-'] <+: a)) ∧
    (∀ p ∈ (tokenize argv).2, ∀ v ∈ p.2, ¬ (['-', '-'] <+: v)) ∧
    (tokenize argv).1 ++
      ((tokenize argv).2.map (fun p => (['-', '-'] ++ p.1) :: p.2)).flatten = argv := by
  have hp : (fun a : Str => decide ¬ (['-', '-'] <+: a)) = fun a => !isArgName a := by
    funext a
    by_cases h : isArgName a = true
    · simp [h, (isArgName_iff a).mp h]
    · have h2 : ¬ (['-', '-'] <+: a) := fun hh => h ((isArgName_iff a).mpr hh)
      simp only [Bool.not_eq_true] at h
      simp [h, h2]
  obtain ⟨h1, h2⟩ := paramLoop_spec
    (argv.dropWhile (fun a => !isArgName a)).length
    (argv.dropWhile (fun a => !isArgName a)) (Nat.le_refl _) (dropWhile_head argv)
  simp only [tokenize, commandLoop_eq, hp]
  refine ⟨trivial, ?_, ?_⟩
  · intro p hp2 v hv hpre
    have := h1 p hp2 v hv
    rw [(isArgName_iff v).mpr hpre] at this
    exact Bool.noConfusion this
  · rw [h2, List.takeWhile_append_dropWhile]

end sargp
